import Mathlib

/-!
Verification of the element type system and the tagged-JSON codec of
`src/panflute/elements.py`.

Modelling conventions (shallow embedding of the Python module):

* `Val` is the universe of Python runtime values that flow through the
  module: strings, booleans, ints, floats (modelled exactly as rationals —
  the module only stores, compares and re-emits them), `None`, lists,
  ordered string-keyed mappings, element instances, and zero-argument
  callables returning an element (the way a niladic element class such as
  `Space` can be passed as a child and is resolved by `validate_item`).
* `Val.dict` stands both for a `dict`/`OrderedDict` and for the list of
  key/value pairs that `json.load(..., object_pairs_hook=from_json)` hands
  to the decoder hook: JSON serialization identifies the two, and the hook
  is the only consumer of decoded objects.  Python tuples produced by
  `dict.items()` serialize as JSON arrays and are modelled as 2-element
  `Val.list`s.
* Failures (assert, TypeError, IndexError, KeyError, ValueError,
  AttributeError, the decoder's `raise Exception('unknown tag ...')`) are
  modelled with the `Res`/`Err` result type; an uncaught Python exception
  is an `Err` value propagating out of the function.
* Lists are spelled with dedicated mutually-inductive list types
  (`VList`, `EList`, ...) so that all recursion is structural and every
  definition evaluates by kernel reduction.
-/

/-- The uncaught-exception taxonomy of the module.  `capabilityMismatch`
is the `AssertionError` raised by `validate_item`, carrying the data its
message is formatted from (parent class name, expected capability,
actual child's type name); `unknownTag` is the decoder's
`Exception('unknown tag ' + tag)`; the others are the builtin exception
classes, whose message text the module does not inspect. -/
inductive Err where
  | assertionError
  | capabilityMismatch (parent : String) (expected : String) (child : String)
  | typeError
  | indexError
  | keyError
  | valueError
  | attributeError
  | unknownTag (tag : String)
  deriving DecidableEq, Repr

/-- Result of running a fragment of the module: a value, or an uncaught
exception. -/
inductive Res (α : Type) where
  | ok (a : α)
  | err (e : Err)
  deriving DecidableEq, Repr

/-- Sequencing of fallible steps: the first uncaught exception
propagates. -/
def Res.bind {α β : Type} : Res α → (α → Res β) → Res β
  | .ok a, f => f a
  | .err e, _ => .err e

@[simp] theorem Res.bind_ok {α β : Type} (a : α) (f : α → Res β) :
    Res.bind (.ok a) f = f a := rfl

@[simp] theorem Res.bind_err {α β : Type} (e : Err) (f : α → Res β) :
    Res.bind (.err e) f = .err e := rfl

/-- True when the computation raised. -/
def Res.isError {α : Type} : Res α → Bool
  | .ok _ => false
  | .err _ => true

@[simp] theorem Res.isError_ok {α : Type} (a : α) :
    Res.isError (.ok a : Res α) = false := rfl

@[simp] theorem Res.isError_err {α : Type} (e : Err) :
    Res.isError (.err e : Res α) = true := rfl

mutual

/-- Python runtime values handled by the module (see the header comment). -/
inductive Val where
  | str (s : String)
  | bool (b : Bool)
  | int (n : Int)
  | float (q : Rat)
  | none
  | list (xs : VList)
  | dict (ps : VPairs)
  | elem (e : Elem)
  | thunk (e : Elem)

/-- A Python list of values. -/
inductive VList where
  | nil
  | cons (hd : Val) (tl : VList)

/-- An ordered string-keyed mapping (`dict` / `OrderedDict` /
the pair list received by the `object_pairs_hook`). -/
inductive VPairs where
  | nil
  | cons (key : String) (val : Val) (tl : VPairs)

/-- Instances of the element classes, with the fields their `__init__`
methods store (`__slots__`).  Fields that the constructor validates to a
fixed Python type are given that type; fields stored unvalidated (for
example `Header.level`, which `validate` only checks for membership in
`(1, ..., 6)` under Python `==`, or `classes`, which is stored as passed)
are kept as raw `Val`s.  `Doc` is the separate root class; `Citation` is
modelled by `Cit` below. -/
inductive Elem where
  | Null
  | Space
  | HorizontalRule
  | SoftBreak
  | LineBreak
  | Plain (items : EList)
  | Para (items : EList)
  | BlockQuote (items : EList)
  | Emph (items : EList)
  | Strong (items : EList)
  | Strikeout (items : EList)
  | Superscript (items : EList)
  | Subscript (items : EList)
  | SmallCaps (items : EList)
  | Note (items : EList)
  | Header (level : Val) (identifier : String) (classes : Val)
      (attributes : VPairs) (items : EList)
  | Div (identifier : String) (classes : Val) (attributes : VPairs)
      (items : EList)
  | Span (identifier : String) (classes : Val) (attributes : VPairs)
      (items : EList)
  | Quoted (quote_type : String) (items : EList)
  | Cite (citations : CitList) (items : EList)
  | Link (identifier : String) (classes : Val) (attributes : VPairs)
      (items : EList) (url : String) (title : String)
  | Image (identifier : String) (classes : Val) (attributes : VPairs)
      (items : EList) (url : String) (title : String)
  | Str (text : String)
  | CodeBlock (text : String) (identifier : String) (classes : Val)
      (attributes : VPairs)
  | RawBlock (text : String) (format : String)
  | Code (text : String) (identifier : String) (classes : Val)
      (attributes : VPairs)
  | Math (text : String) (format : String)
  | RawInline (text : String) (format : String)
  | BulletList (items : ELL)
  | OrderedList (items : ELL) (start : Val) (style : String)
      (delimiter : String)
  | DefinitionList (items : DefItems)
  | Table (items : ELLL) (rows : Nat) (cols : Nat) (header : ELL)
      (caption : EList) (alignment : SList) (width : Val)
  | MetaInlines (items : EList)
  | MetaBlocks (items : EList)
  | Doc (metadata : VPairs) (items : Val) (format : Val)

/-- A list of elements. -/
inductive EList where
  | nil
  | cons (hd : Elem) (tl : EList)

/-- A list of lists of elements (list items / table header cells). -/
inductive ELL where
  | nil
  | cons (hd : EList) (tl : ELL)

/-- A list of lists of lists of elements (table body rows). -/
inductive ELLL where
  | nil
  | cons (hd : ELL) (tl : ELLL)

/-- DefinitionList items: (term, definitions) pairs. -/
inductive DefItems where
  | nil
  | cons (term : EList) (defs : ELL) (tl : DefItems)

/-- A list of plain strings (the alignment tags a `Table` would store). -/
inductive SList where
  | nil
  | cons (hd : String) (tl : SList)

/-- An instance of the `Citation` class.  Its constructor always raises
(see `mkCitation`), so no `Cit` value is ever produced by the module;
the type records the slots for the sake of `Citation.encode_content`.
`citationPre` and `citationSuf` model the source's citation prefix and
suffix slots. -/
inductive Cit where
  | mk (citationHash : Val) (citationId : Val) (citationMode : String)
      (citationNoteNum : Val) (citationPre : EList) (citationSuf : EList)

/-- A list of citations. -/
inductive CitList where
  | nil
  | cons (hd : Cit) (tl : CitList)

end

-- ---------------------------
-- Constants (source lines 691-709)
-- ---------------------------

/-- `LIST_NUMBER_STYLES`.  The source's constant sets are used only for
membership tests, so they are modelled as lists of their members. -/
def LIST_NUMBER_STYLES : List String :=
  ["DefaultStyle", "Example", "Decimal", "LowerRoman",
   "UpperRoman", "LowerAlpha", "UpperAlpha"]

/-- `LIST_NUMBER_DELIMITERS`. -/
def LIST_NUMBER_DELIMITERS : List String :=
  ["DefaultDelim", "Period", "OneParen", "TwoParens"]

/-- `TABLE_ALIGNMENT`. -/
def TABLE_ALIGNMENT : List String :=
  ["AlignLeft", "AlignRight", "AlignCenter", "AlignDefault"]

/-- `QUOTE_TYPES`. -/
def QUOTE_TYPES : List String := ["SingleQuote", "DoubleQuote"]

/-- `CITATION_MODE`. -/
def CITATION_MODE : List String :=
  ["AuthorInText", "SuppressAuthor", "NormalCitation"]

/-- `MATH_FORMATS`. -/
def MATH_FORMATS : List String := ["DisplayMath", "InlineMath"]

/-- `RAW_FORMATS`. -/
def RAW_FORMATS : List String := ["html", "tex", "latex"]

/-- `SPECIAL_ELEMENTS`: the union of the six enumeration sets
(membership is what matters; the order here is immaterial). -/
def SPECIAL_ELEMENTS : List String :=
  LIST_NUMBER_STYLES ++ LIST_NUMBER_DELIMITERS ++ MATH_FORMATS ++
    TABLE_ALIGNMENT ++ QUOTE_TYPES ++ CITATION_MODE

/-- Membership of a string in one of the constant sets
(Python `x in group` for a string `x`). -/
def strIn (s : String) : List String → Bool
  | [] => false
  | a :: tl => decide (s = a) || strIn s tl

-- ---------------------------
-- Python semantics helpers
-- ---------------------------

/-- The numeric value of a Python number (`bool` is a subclass of `int`,
so `True == 1`); `Option.none` for non-numbers. -/
def pyNum : Val → Option Rat
  | .bool b => some (if b then 1 else 0)
  | .int n => some (n : Rat)
  | .float q => some q
  | _ => Option.none

/-- Python `==` as the module exercises it: cross-type numeric equality,
string equality, `None` identity.  The module never compares containers
or element instances with `==` (its comparands are always members of the
scalar constant groups, or scalar literals), so those cases are `false`
here exactly as a scalar-vs-container comparison is in Python. -/
def pyEq (a b : Val) : Bool :=
  match pyNum a, pyNum b with
  | some x, some y => decide (x = y)
  | _, _ =>
    match a, b with
    | .str s, .str t => decide (s = t)
    | .none, .none => true
    | _, _ => false

/-- Python truthiness (`if x:`) for the values the module tests. -/
def pyTruthy : Val → Bool
  | .str s => decide (s ≠ "")
  | .bool b => b
  | .int n => decide (n ≠ 0)
  | .float q => decide (q ≠ 0)
  | .none => false
  | .list .nil => false
  | .list (.cons _ _) => true
  | .dict .nil => false
  | .dict (.cons _ _ _) => true
  | .elem _ => true
  | .thunk _ => true

/-- Zero-based indexing into a `VList`. -/
def VList.get? : VList → Nat → Option Val
  | .nil, _ => Option.none
  | .cons x _, 0 => some x
  | .cons _ tl, n + 1 => VList.get? tl n

/-- First value stored under a key (the pairs the module reads keys from
have unique keys, so first match and `dict` lookup agree). -/
def VPairs.find? : VPairs → String → Option Val
  | .nil, _ => Option.none
  | .cons k v tl, key => if k = key then some v else VPairs.find? tl key

/-- Number of pairs. -/
def VPairs.length : VPairs → Nat
  | .nil => 0
  | .cons _ _ tl => 1 + VPairs.length tl

/-- Whether a key is present. -/
def VPairs.hasKey (ps : VPairs) (key : String) : Bool :=
  (ps.find? key).isSome

/-- The characters of a Python string, as the 1-character strings
iterating over it yields. -/
def strCharsV : List Char → VList
  | [] => .nil
  | c :: cs => .cons (.str (String.mk [c])) (strCharsV cs)

/-- The keys of a mapping, as iterating over a `dict` yields them. -/
def keysV : VPairs → VList
  | .nil => .nil
  | .cons k _ tl => .cons (.str k) (keysV tl)

/-- Python iteration (`for x in v`, `*v` unpacking): lists yield their
elements, strings their characters, mappings their keys; other values
raise `TypeError`. -/
def pyIter : Val → Res VList
  | .list xs => .ok xs
  | .str s => .ok (strCharsV s.data)
  | .dict ps => .ok (keysV ps)
  | _ => .err .typeError

/-- Python `v[i]` for a non-negative integer literal as the decoder uses
it: list indexing (`IndexError` past the end), string indexing, mapping
lookup (these are string-keyed, so an integer key is a `KeyError`),
`TypeError` otherwise. -/
def pyGetItem (v : Val) (i : Nat) : Res Val :=
  match v with
  | .list xs =>
    match xs.get? i with
    | some x => .ok x
    | Option.none => .err .indexError
  | .str s =>
    match s.data.get? i with
    | some c => .ok (.str (String.mk [c]))
    | Option.none => .err .indexError
  | .dict _ => .err .keyError
  | _ => .err .typeError

/-- Truncation toward zero, Python `int(...)` on a float. -/
def ratTrunc (q : Rat) : Int := if 0 ≤ q then q.floor else q.ceil

/-- Python `int(x)` as `init_ssd` applies it. -/
def pyToInt : Val → Res Int
  | .bool b => .ok (if b then 1 else 0)
  | .int n => .ok n
  | .float q => .ok (ratTrunc q)
  | .str s =>
    match s.toInt? with
    | some n => .ok n
    | Option.none => .err .valueError
  | _ => .err .typeError

/-- Python `a <= b` for the numeric comparisons the module makes
(`0 <= start`, `item >= 0`); comparing a number with a non-number is a
`TypeError` in Python 3. -/
def pyLe (a b : Val) : Res Bool :=
  match pyNum a, pyNum b with
  | some x, some y => .ok (decide (x ≤ y))
  | _, _ => .err .typeError

-- ---------------------------
-- Class names and capability tags
-- ---------------------------

/-- `type(e).__name__` for an element instance. -/
def elemName : Elem → String
  | .Null => "Null"
  | .Space => "Space"
  | .HorizontalRule => "HorizontalRule"
  | .SoftBreak => "SoftBreak"
  | .LineBreak => "LineBreak"
  | .Plain _ => "Plain"
  | .Para _ => "Para"
  | .BlockQuote _ => "BlockQuote"
  | .Emph _ => "Emph"
  | .Strong _ => "Strong"
  | .Strikeout _ => "Strikeout"
  | .Superscript _ => "Superscript"
  | .Subscript _ => "Subscript"
  | .SmallCaps _ => "SmallCaps"
  | .Note _ => "Note"
  | .Header _ _ _ _ _ => "Header"
  | .Div _ _ _ _ => "Div"
  | .Span _ _ _ _ => "Span"
  | .Quoted _ _ => "Quoted"
  | .Cite _ _ => "Cite"
  | .Link _ _ _ _ _ _ => "Link"
  | .Image _ _ _ _ _ _ => "Image"
  | .Str _ => "Str"
  | .CodeBlock _ _ _ _ => "CodeBlock"
  | .RawBlock _ _ => "RawBlock"
  | .Code _ _ _ _ => "Code"
  | .Math _ _ => "Math"
  | .RawInline _ _ => "RawInline"
  | .BulletList _ => "BulletList"
  | .OrderedList _ _ _ _ => "OrderedList"
  | .DefinitionList _ => "DefinitionList"
  | .Table _ _ _ _ _ _ _ => "Table"
  | .MetaInlines _ => "MetaInlines"
  | .MetaBlocks _ => "MetaBlocks"
  | .Doc _ _ _ => "Doc"

/-- `type(x).__name__` for any value (used in `validate_item`'s error
message when the offending child is not an element). -/
def typeName : Val → String
  | .str _ => "str"
  | .bool _ => "bool"
  | .int _ => "int"
  | .float _ => "float"
  | .none => "NoneType"
  | .list _ => "list"
  | .dict _ => "OrderedDict"
  | .elem e => elemName e
  | .thunk e => elemName e

/-- `isinstance(e, Block)`: the classes declared as `class X(Block)`. -/
def isBlock : Elem → Bool
  | .Null => true
  | .HorizontalRule => true
  | .Plain _ => true
  | .Para _ => true
  | .BlockQuote _ => true
  | .Header _ _ _ _ _ => true
  | .Div _ _ _ _ => true
  | .CodeBlock _ _ _ _ => true
  | .RawBlock _ _ => true
  | .BulletList _ => true
  | .OrderedList _ _ _ _ => true
  | .DefinitionList _ => true
  | .Table _ _ _ _ _ _ _ => true
  | _ => false

/-- `isinstance(e, Inline)`: the classes declared as `class X(Inline)`.
(`MetaInlines`, `MetaBlocks` and `Doc` are neither.) -/
def isInline : Elem → Bool
  | .Space => true
  | .SoftBreak => true
  | .LineBreak => true
  | .Emph _ => true
  | .Strong _ => true
  | .Strikeout _ => true
  | .Superscript _ => true
  | .Subscript _ => true
  | .SmallCaps _ => true
  | .Note _ => true
  | .Span _ _ _ _ => true
  | .Quoted _ _ => true
  | .Cite _ _ => true
  | .Link _ _ _ _ _ _ => true
  | .Image _ _ _ _ _ _ => true
  | .Str _ => true
  | .Code _ _ _ _ => true
  | .Math _ _ => true
  | .RawInline _ _ => true
  | _ => false

-- ---------------------------
-- Aux Functions - Initialize (source lines 715-769)
-- ---------------------------

/-- `x() if callable(x) else x` in `validate_item`: a passed callable is
invoked with no arguments (modelled by `Val.thunk`). -/
def resolve_callable : Val → Val
  | .thunk e => .elem e
  | v => v

/-- `validate(x, group=g)`: `assert x in g` (Python `in` uses `==`, so a
non-string never matches a string group and `True` matches `1`), then
return `x` unchanged. -/
def validate_group (x : Val) (g : List Val) : Res Val :=
  if g.any (fun y => pyEq x y) then .ok x else .err .assertionError

/-- `validate(x, group=g)` for a group of strings, returning the matched
string: since `pyEq` relates a string only to an equal string, this is
`validate_group` specialised to string groups (the stored field is the
string itself). -/
def validate_group_str (x : Val) (g : List String) : Res String :=
  match x with
  | .str s => if strIn s g then .ok s else .err .assertionError
  | _ => .err .assertionError

/-- `validate(x, instance=str)`: `assert isinstance(x, str)`, then
return `x`. -/
def validate_str (x : Val) : Res String :=
  match x with
  | .str s => .ok s
  | _ => .err .assertionError

/-- `validate_item(x, has_blocks, obj)` (source lines 735-745): resolve
a callable, then `assert isinstance(x, Block if has_blocks else Inline)`;
on failure the `AssertionError` message names the parent class, the
expected capability and the child's type (plus a `repr` of the child,
not modelled). -/
def validate_item (x : Val) (has_blocks : Bool) (objName : String) : Res Elem :=
  let x := resolve_callable x
  let expected : String := if has_blocks then "Block" else "Inline"
  match x with
  | .elem e =>
    if (if has_blocks then isBlock e else isInline e) then .ok e
    else .err (.capabilityMismatch objName expected (elemName e))
  | v => .err (.capabilityMismatch objName expected (typeName v))

/-- `init_items` at `depth=1`:
`[validate_item(x, has_blocks, obj) for x in args]`. -/
def init_items1 (objName : String) (args : VList) (has_blocks : Bool) :
    Res EList :=
  match args with
  | .nil => .ok .nil
  | .cons x tl =>
    (validate_item x has_blocks objName).bind fun e =>
      (init_items1 objName tl has_blocks).bind fun es =>
        .ok (.cons e es)

/-- One row of `init_items` at `depth=2`: the inner comprehension
`[validate_item(x, has_blocks, obj) for x in y]`, where `y` must itself
be iterable. -/
def init_itemsRow (objName : String) (y : Val) (has_blocks : Bool) :
    Res EList :=
  (pyIter y).bind fun xs => init_items1 objName xs has_blocks

/-- `init_items` at `depth=2`. -/
def init_items2 (objName : String) (args : VList) (has_blocks : Bool) :
    Res ELL :=
  match args with
  | .nil => .ok .nil
  | .cons y tl =>
    (init_itemsRow objName y has_blocks).bind fun row =>
      (init_items2 objName tl has_blocks).bind fun rows =>
        .ok (.cons row rows)

/-- One row of `init_items` at `depth=3` (a row of cells, each a list of
blocks). -/
def init_itemsRow2 (objName : String) (z : Val) (has_blocks : Bool) :
    Res ELL :=
  (pyIter z).bind fun ys => init_items2 objName ys has_blocks

/-- `init_items` at `depth=3`. -/
def init_items3 (objName : String) (args : VList) (has_blocks : Bool) :
    Res ELLL :=
  match args with
  | .nil => .ok .nil
  | .cons z tl =>
    (init_itemsRow2 objName z has_blocks).bind fun row =>
      (init_items3 objName tl has_blocks).bind fun rows =>
        .ok (.cons row rows)

/-- Check that every element of a list is a Python `str`
(`all(isinstance(cl, str) for cl in ...)`). -/
def vlistAllStr : VList → Bool
  | .nil => true
  | .cons (.str _) tl => vlistAllStr tl
  | .cons _ _ => false

/-- `init_ica(self, identifier, classes, attributes)` (source lines
748-754): normalize falsy `classes`/`attributes` to fresh empties, then
assert the identifier is a `str`, `attributes` is a `dict`, and every
class is a `str` (iterating `classes`).  Returns the stored
`(identifier, classes, attributes)` triple. -/
def init_ica (identifier classes attributes : Val) :
    Res (String × Val × VPairs) :=
  let classes1 : Val := if pyTruthy classes then classes else .list .nil
  (match identifier with
    | .str s => (.ok s : Res String)
    | _ => .err .assertionError).bind fun idStr =>
  (match (if pyTruthy attributes then attributes else .dict .nil) with
    | .dict ps => (.ok ps : Res VPairs)
    | _ => .err .assertionError).bind fun attrs =>
  (pyIter classes1).bind fun cls =>
  if vlistAllStr cls then .ok (idStr, classes1, attrs)
  else .err .assertionError

/-- `init_ssd(self, start, style, delimiter)` (source lines 757-764):
`assert (start == int(start)) and (0 <= start)` (so a float with zero
fractional part or a bool passes, and `int()` of a non-numeric string
raises `ValueError`), then membership of style and delimiter in their
sets.  Returns the stored `(start, style, delimiter)`. -/
def init_ssd (start style delimiter : Val) : Res (Val × String × String) :=
  (pyToInt start).bind fun istart =>
  (if pyEq start (.int istart) then
    (pyLe (.int 0) start).bind fun le =>
      if le then .ok () else .err .assertionError
   else .err .assertionError).bind fun _ =>
  (validate_group_str style LIST_NUMBER_STYLES).bind fun sty =>
  (validate_group_str delimiter LIST_NUMBER_DELIMITERS).bind fun delim =>
  .ok (start, sty, delim)

/-- `init_ut(self, url, title)`: both must be strings. -/
def init_ut (url title : Val) : Res (String × String) :=
  (validate_str url).bind fun u =>
  (validate_str title).bind fun t =>
  .ok (u, t)

/-- Python `dict(c)`: copy a mapping, or build one from an iterable of
key/value pairs (duplicate keys keep the first position and the last
value).  The module only ever builds string-keyed mappings, so a
non-string key (unrepresentable in `VPairs`) is collapsed into the
`TypeError` branch. -/
def VPairs.lastVal : VPairs → String → Val → Val
  | .nil, _, v => v
  | .cons k w tl, key, v =>
    if k = key then VPairs.lastVal tl key w else VPairs.lastVal tl key v

/-- Deduplication pass of `dict(...)`: first position, last value. -/
def dedupGo (seen : List String) : VPairs → VPairs
  | .nil => .nil
  | .cons k v tl =>
    if strIn k seen then dedupGo seen tl
    else .cons k (VPairs.lastVal tl k v) (dedupGo (k :: seen) tl)

/-- `dict(...)` / `OrderedDict(...)` over a mapping or pair sequence. -/
def pyDict : Val → Res VPairs
  | .dict ps => .ok (dedupGo [] ps)
  | .list items =>
    (pyPairsOf items).bind fun ps => .ok (dedupGo [] ps)
  | .str _ => .err .valueError
  | _ => .err .typeError
where
  /-- Collect `(key, value)` from an iterable of 2-element iterables. -/
  pyPairsOf : VList → Res VPairs
  | .nil => .ok .nil
  | .cons item tl =>
    (pyIter item).bind fun xs =>
      match xs with
      | .cons (.str k) (.cons v .nil) => (pyPairsOf tl).bind fun ps => .ok (.cons k v ps)
      | .cons _ (.cons _ .nil) => .err .typeError
      | _ => .err .valueError

/-- Python 2-tuple unpacking `k, v = arg` (ValueError when the iterable
does not have exactly two elements). -/
def pyUnpack2 (v : Val) : Res (Val × Val) :=
  (pyIter v).bind fun xs =>
    match xs with
    | .cons a (.cons b .nil) => .ok (a, b)
    | _ => .err .valueError

-- ---------------------------
-- Element constructors (the classes' __init__ methods)
-- ---------------------------

/-- `Plain(*args)`. -/
def mkPlain (args : VList) : Res Elem :=
  (init_items1 "Plain" args false).bind fun items => .ok (.Plain items)

/-- `Para(*args)`. -/
def mkPara (args : VList) : Res Elem :=
  (init_items1 "Para" args false).bind fun items => .ok (.Para items)

/-- `BlockQuote(*args)`. -/
def mkBlockQuote (args : VList) : Res Elem :=
  (init_items1 "BlockQuote" args true).bind fun items => .ok (.BlockQuote items)

/-- `Emph(*args)`. -/
def mkEmph (args : VList) : Res Elem :=
  (init_items1 "Emph" args false).bind fun items => .ok (.Emph items)

/-- `Strong(*args)`. -/
def mkStrong (args : VList) : Res Elem :=
  (init_items1 "Strong" args false).bind fun items => .ok (.Strong items)

/-- `Strikeout(*args)`. -/
def mkStrikeout (args : VList) : Res Elem :=
  (init_items1 "Strikeout" args false).bind fun items => .ok (.Strikeout items)

/-- `Superscript(*args)`. -/
def mkSuperscript (args : VList) : Res Elem :=
  (init_items1 "Superscript" args false).bind fun items => .ok (.Superscript items)

/-- `Subscript(*args)`. -/
def mkSubscript (args : VList) : Res Elem :=
  (init_items1 "Subscript" args false).bind fun items => .ok (.Subscript items)

/-- `SmallCaps(*args)`. -/
def mkSmallCaps (args : VList) : Res Elem :=
  (init_items1 "SmallCaps" args false).bind fun items => .ok (.SmallCaps items)

/-- `Note(*args)`: children are Blocks. -/
def mkNote (args : VList) : Res Elem :=
  (init_items1 "Note" args true).bind fun items => .ok (.Note items)

/-- The group `(1, 2, 3, 4, 5, 6)` that `Header.level` is validated
against. -/
def LEVEL_GROUP : List Val :=
  [.int 1, .int 2, .int 3, .int 4, .int 5, .int 6]

/-- `Header(*args, level=1, identifier='', classes=None, attributes=None)`:
level is validated first, then the ica bundle, then the items. -/
def mkHeader (args : VList) (level identifier classes attributes : Val) :
    Res Elem :=
  (validate_group level LEVEL_GROUP).bind fun lv =>
  (init_ica identifier classes attributes).bind fun ica =>
  (init_items1 "Header" args false).bind fun items =>
  .ok (.Header lv ica.1 ica.2.1 ica.2.2 items)

/-- `Div(*args, identifier='', classes=None, attributes=None)`. -/
def mkDiv (args : VList) (identifier classes attributes : Val) : Res Elem :=
  (init_ica identifier classes attributes).bind fun ica =>
  (init_items1 "Div" args true).bind fun items =>
  .ok (.Div ica.1 ica.2.1 ica.2.2 items)

/-- `Span(*args, identifier='', classes=None, attributes=None)`. -/
def mkSpan (args : VList) (identifier classes attributes : Val) : Res Elem :=
  (init_ica identifier classes attributes).bind fun ica =>
  (init_items1 "Span" args false).bind fun items =>
  .ok (.Span ica.1 ica.2.1 ica.2.2 items)

/-- `Quoted(*args, quote_type='DoubleQuote')`. -/
def mkQuoted (args : VList) (quote_type : Val) : Res Elem :=
  (validate_group_str quote_type QUOTE_TYPES).bind fun qt =>
  (init_items1 "Quoted" args false).bind fun items =>
  .ok (.Quoted qt items)

/-- `Citation(citationHash, citationId, citationMode, citationNoteNum,
citationPrefix, citationSuffix)`: the hash and id are stored unchecked
and the mode is validated, but the constructor then calls
`init_items(citationPrefix, has_blocks=False)` without the required
positional `args` parameter of `init_items(obj, args, has_blocks,
depth=1)`, so every `Citation` construction raises `TypeError`. -/
def mkCitation (_citationHash _citationId : Val) (citationMode : Val)
    (_citationNoteNum _citationPre _citationSuf : Val) : Res Cit :=
  (validate_group_str citationMode CITATION_MODE).bind fun _ =>
  .err .typeError

/-- `Citation(**dict(c))`: keyword expansion requires the mapping's keys
to be exactly the six parameter names (a missing or unexpected keyword
raises `TypeError`). -/
def mkCitationKw (d : VPairs) : Res Cit :=
  match d.find? "citationHash", d.find? "citationId", d.find? "citationMode",
      d.find? "citationNoteNum", d.find? "citationPrefix",
      d.find? "citationSuffix" with
  | some h, some i, some m, some n, some p, some s =>
    if d.length = 6 then mkCitation h i m n p s else .err .typeError
  | _, _, _, _, _, _ => .err .typeError

/-- The comprehension `[Citation(**dict(c)) for c in citations]`. -/
def mkCitations : VList → Res CitList
  | .nil => .ok .nil
  | .cons c tl =>
    (pyDict c).bind fun d =>
    (mkCitationKw d).bind fun cit =>
    (mkCitations tl).bind fun cits =>
    .ok (.cons cit cits)

/-- `Cite(*args, citations)`: the citation records are built first, then
the items. -/
def mkCite (args : VList) (citations : Val) : Res Elem :=
  (pyIter citations).bind fun cs =>
  (mkCitations cs).bind fun cits =>
  (init_items1 "Cite" args false).bind fun items =>
  .ok (.Cite cits items)

/-- `Link(*args, url, title, identifier='', classes=None,
attributes=None)`: items first, then the target pair, then the ica
bundle. -/
def mkLink (args : VList) (url title identifier classes attributes : Val) :
    Res Elem :=
  (init_items1 "Link" args false).bind fun items =>
  (init_ut url title).bind fun ut =>
  (init_ica identifier classes attributes).bind fun ica =>
  .ok (.Link ica.1 ica.2.1 ica.2.2 items ut.1 ut.2)

/-- `Image(*args, url, title, identifier='', classes=None,
attributes=None)`. -/
def mkImage (args : VList) (url title identifier classes attributes : Val) :
    Res Elem :=
  (init_items1 "Image" args false).bind fun items =>
  (init_ut url title).bind fun ut =>
  (init_ica identifier classes attributes).bind fun ica =>
  .ok (.Image ica.1 ica.2.1 ica.2.2 items ut.1 ut.2)

/-- `Str(text)`. -/
def mkStr (text : Val) : Res Elem :=
  (validate_str text).bind fun s => .ok (.Str s)

/-- `CodeBlock(text, identifier='', classes=None, attributes=None)`. -/
def mkCodeBlock (text identifier classes attributes : Val) : Res Elem :=
  (validate_str text).bind fun s =>
  (init_ica identifier classes attributes).bind fun ica =>
  .ok (.CodeBlock s ica.1 ica.2.1 ica.2.2)

/-- `RawBlock(text, format)`. -/
def mkRawBlock (text format : Val) : Res Elem :=
  (validate_str text).bind fun s =>
  (validate_group_str format RAW_FORMATS).bind fun f =>
  .ok (.RawBlock s f)

/-- `Code(text, identifier='', classes=None, attributes=None)`. -/
def mkCode (text identifier classes attributes : Val) : Res Elem :=
  (validate_str text).bind fun s =>
  (init_ica identifier classes attributes).bind fun ica =>
  .ok (.Code s ica.1 ica.2.1 ica.2.2)

/-- `Math(text, format)`. -/
def mkMath (text format : Val) : Res Elem :=
  (validate_str text).bind fun s =>
  (validate_group_str format MATH_FORMATS).bind fun f =>
  .ok (.Math s f)

/-- `RawInline(text, format)`. -/
def mkRawInline (text format : Val) : Res Elem :=
  (validate_str text).bind fun s =>
  (validate_group_str format RAW_FORMATS).bind fun f =>
  .ok (.RawInline s f)

/-- `BulletList(*args)`: depth-2 items. -/
def mkBulletList (args : VList) : Res Elem :=
  (init_items2 "BulletList" args true).bind fun items => .ok (.BulletList items)

/-- `OrderedList(*args, start=1, style='Decimal', delimiter='Period')`:
items first, then the numbering descriptor. -/
def mkOrderedList (args : VList) (start style delimiter : Val) : Res Elem :=
  (init_items2 "OrderedList" args true).bind fun items =>
  (init_ssd start style delimiter).bind fun ssd =>
  .ok (.OrderedList items ssd.1 ssd.2.1 ssd.2.2)

/-- `DefinitionList(*args)`: each arg is unpacked as a `(k, v)` pair,
after which the comprehension calls `init_items(k, has_blocks=False)` —
again without the required positional `args` parameter — so any
non-empty `DefinitionList` construction raises `TypeError` (an arg that
does not unpack into exactly two values raises first). -/
def mkDefinitionList (args : VList) : Res Elem :=
  match args with
  | .nil => .ok (.DefinitionList .nil)
  | .cons a _ => (pyUnpack2 a).bind fun _ => .err .typeError

/-- `Table(*args, header=None, caption=None, alignment=None,
width=None)` (source lines 608-624): the body items are validated
(depth 3), `self.rows = len(self.items)` and
`self.cols = len(self.items[0])` are computed — an empty body hits
`IndexError` at `self.items[0]` — and then line 614 calls
`init_items(header, has_blocks=True, depth=2)` without the required
positional `args` parameter of `init_items(obj, args, has_blocks,
depth=1)`, raising `TypeError`; the remaining checks (header length,
caption, alignment membership, width sign) on lines 615-624 are
unreachable, so no `Table` is ever constructed. -/
def mkTable (args : VList) (_header _caption _alignment _width : Val) :
    Res Elem :=
  (init_items3 "Table" args true).bind fun items =>
  match items with
  | .nil => .err .indexError
  | .cons _ _ => .err .typeError

/-- `MetaInlines(*args)`. -/
def mkMetaInlines (args : VList) : Res Elem :=
  (init_items1 "MetaInlines" args false).bind fun items =>
  .ok (.MetaInlines items)

/-- `MetaBlocks(*args)`: children are Blocks. -/
def mkMetaBlocks (args : VList) : Res Elem :=
  (init_items1 "MetaBlocks" args true).bind fun items =>
  .ok (.MetaBlocks items)

/-- `Doc(metadata, items, format)`: asserts
`type(metadata) == OrderedDict`; items and format are stored as
passed. -/
def mkDoc (metadata items format : Val) : Res Elem :=
  match metadata with
  | .dict ps => .ok (.Doc ps items format)
  | _ => .err .assertionError

-- ---------------------------
-- Encoder (to_json / encode_content / encode_items / metawalk)
-- ---------------------------

/-- `encode_dict(tag, content)`: the ordered two-key tagged mapping. -/
def encode_dict (tag : String) (content : Val) : Val :=
  .dict (.cons "t" (.str tag) (.cons "c" content .nil))

/-- `list(self.attributes.items())` as it appears on the wire: each
`(k, v)` tuple serializes as a 2-element array. -/
def attrItemsV : VPairs → VList
  | .nil => .nil
  | .cons k v tl => .cons (.list (.cons (.str k) (.cons v .nil))) (attrItemsV tl)

/-- `encode_ica(self)`:
`[self.identifier, self.classes, list(self.attributes.items())]`
(classes is emitted exactly as stored). -/
def encode_ica (identifier : String) (classes : Val) (attributes : VPairs) :
    Val :=
  .list (.cons (.str identifier)
    (.cons classes (.cons (.list (attrItemsV attributes)) .nil)))

/-- `[encode_dict(x, []) for x in self.alignment]`. -/
def encodeAlignment : SList → VList
  | .nil => .nil
  | .cons s tl => .cons (encode_dict s (.list .nil)) (encodeAlignment tl)

mutual

/-- `encode_content` of each element class. -/
def encodeContent : Elem → Val
  | .Null => .list .nil
  | .Space => .list .nil
  | .HorizontalRule => .list .nil
  | .SoftBreak => .list .nil
  | .LineBreak => .list .nil
  | .Plain items => .list (encodeEList items)
  | .Para items => .list (encodeEList items)
  | .BlockQuote items => .list (encodeEList items)
  | .Emph items => .list (encodeEList items)
  | .Strong items => .list (encodeEList items)
  | .Strikeout items => .list (encodeEList items)
  | .Superscript items => .list (encodeEList items)
  | .Subscript items => .list (encodeEList items)
  | .SmallCaps items => .list (encodeEList items)
  | .Note items => .list (encodeEList items)
  | .Header lv identifier classes attributes items =>
    .list (.cons lv (.cons (encode_ica identifier classes attributes)
      (.cons (.list (encodeEList items)) .nil)))
  | .Div identifier classes attributes items =>
    .list (.cons (encode_ica identifier classes attributes)
      (.cons (.list (encodeEList items)) .nil))
  | .Span identifier classes attributes items =>
    .list (.cons (encode_ica identifier classes attributes)
      (.cons (.list (encodeEList items)) .nil))
  | .Quoted quote_type items =>
    .list (.cons (encode_dict quote_type (.list .nil))
      (.cons (.list (encodeEList items)) .nil))
  | .Cite citations items =>
    .list (.cons (.list (encodeCitList citations))
      (.cons (.list (encodeEList items)) .nil))
  | .Link identifier classes attributes items url title =>
    .list (.cons (encode_ica identifier classes attributes)
      (.cons (.list (encodeEList items))
        (.cons (.list (.cons (.str url) (.cons (.str title) .nil))) .nil)))
  | .Image identifier classes attributes items url title =>
    .list (.cons (encode_ica identifier classes attributes)
      (.cons (.list (encodeEList items))
        (.cons (.list (.cons (.str url) (.cons (.str title) .nil))) .nil)))
  | .Str text => .str text
  | .CodeBlock text identifier classes attributes =>
    .list (.cons (encode_ica identifier classes attributes)
      (.cons (.str text) .nil))
  | .RawBlock text format => .list (.cons (.str format) (.cons (.str text) .nil))
  | .Code text identifier classes attributes =>
    .list (.cons (encode_ica identifier classes attributes)
      (.cons (.str text) .nil))
  | .Math text format =>
    .list (.cons (encode_dict format (.list .nil)) (.cons (.str text) .nil))
  | .RawInline text format =>
    .list (.cons (.str format) (.cons (.str text) .nil))
  | .BulletList items => .list (encodeELL items)
  | .OrderedList items start style delimiter =>
    .list (.cons (.list (.cons start (.cons (encode_dict style (.list .nil))
        (.cons (encode_dict delimiter (.list .nil)) .nil))))
      (.cons (.list (encodeELL items)) .nil))
  | .DefinitionList items => .list (encodeDefItems items)
  | .Table items _rows _cols header caption alignment width =>
    .list (.cons (.list (encodeEList caption))
      (.cons (.list (encodeAlignment alignment))
        (.cons width
          (.cons (.list (encodeELL header))
            (.cons (.list (encodeELLL items)) .nil)))))
  | .MetaInlines items => .list (encodeEList items)
  | .MetaBlocks items => .list (encodeEList items)
  | .Doc _ _ _ => .none

/-- `[to_json(x) for x in items]` (each child encodes as
`encode_dict(type(x).__name__, x.encode_content())`). -/
def encodeEList : EList → VList
  | .nil => .nil
  | .cons e tl =>
    .cons (encode_dict (elemName e) (encodeContent e)) (encodeEList tl)

/-- `[[to_json(x) for x in row] for row in items]`. -/
def encodeELL : ELL → VList
  | .nil => .nil
  | .cons row tl => .cons (.list (encodeEList row)) (encodeELL tl)

/-- `[[[to_json(x) for x in cell] for cell in row] for row in items]`. -/
def encodeELLL : ELLL → VList
  | .nil => .nil
  | .cons row tl => .cons (.list (encodeELL row)) (encodeELLL tl)

/-- `encode_items` for `DefinitionList`. -/
def encodeDefItems : DefItems → VList
  | .nil => .nil
  | .cons k v tl =>
    .cons (.list (.cons (.list (encodeEList k))
      (.cons (.list (encodeELL v)) .nil))) (encodeDefItems tl)

/-- `[x.encode_content() for x in self.citations]`. -/
def encodeCitList : CitList → VList
  | .nil => .nil
  | .cons c tl => .cons (encodeCit c) (encodeCitList tl)

/-- `Citation.encode_content` (source lines 390-400): an ordered mapping
in the order Suffix, NoteNum, Mode, Prefix, Id, Hash; the mode is
emitted in the bare tagged form. -/
def encodeCit : Cit → Val
  | .mk h i mode n pre suf =>
    .dict (.cons "citationSuffix" (.list (encodeEList suf))
      (.cons "citationNoteNum" n
        (.cons "citationMode" (encode_dict mode (.list .nil))
          (.cons "citationPrefix" (.list (encodeEList pre))
            (.cons "citationId" i
              (.cons "citationHash" h .nil))))))

end

/-- `to_json` restricted to element instances other than `Doc`:
`encode_dict(type(element).__name__, element.encode_content())`.
It is total: every stored field is emitted as-is or recursively
encoded.  (`Doc` is special-cased by `to_json` below and can never
appear as a validated child, since it is neither Block nor Inline.) -/
def encodeElem (e : Elem) : Val :=
  encode_dict (elemName e) (encodeContent e)

/-- Each child of a list encodes through `encodeElem`. -/
theorem encodeEList_cons (e : Elem) (tl : EList) :
    encodeEList (.cons e tl) = .cons (encodeElem e) (encodeEList tl) := rfl

mutual

/-- `metawalk(e)` (source lines 637-653): asserts the value is one of
`str`, `list`, `bool`, `MetaInlines`, `MetaBlocks`, `OrderedDict` and
encodes it; strings pass through, the snippet wrappers encode via
`to_json`, lists and mappings are walked recursively and wrapped, bools
are wrapped as `MetaBool`. -/
def metawalk : Val → Res Val
  | .str s => .ok (.str s)
  | .elem (.MetaInlines items) => .ok (encodeElem (.MetaInlines items))
  | .elem (.MetaBlocks items) => .ok (encodeElem (.MetaBlocks items))
  | .list xs =>
    (metawalkVList xs).bind fun ys => .ok (encode_dict "MetaList" (.list ys))
  | .dict ps =>
    (metawalkVPairs ps).bind fun qs => .ok (encode_dict "MetaMap" (.dict qs))
  | .bool b => .ok (encode_dict "MetaBool" (.bool b))
  | _ => .err .assertionError

/-- `[metawalk(ee) for ee in e]`. -/
def metawalkVList : VList → Res VList
  | .nil => .ok .nil
  | .cons x tl =>
    (metawalk x).bind fun y =>
      (metawalkVList tl).bind fun ys => .ok (.cons y ys)

/-- `OrderedDict((k, metawalk(v)) for k, v in e.items())`. -/
def metawalkVPairs : VPairs → Res VPairs
  | .nil => .ok .nil
  | .cons k v tl =>
    (metawalk v).bind fun w =>
      (metawalkVPairs tl).bind fun ws => .ok (.cons k w ws)

end

/-- `to_json(element)` (source lines 775-782).  For a `Doc` it walks the
metadata with `metawalk` and returns
`[{'unMeta': meta}, element.items]` — note that `element.items` is
emitted as stored, without encoding the blocks.  For any other element
instance it returns the tagged encoding.  Any non-element argument has
no `encode_content` method, so the call raises `AttributeError`. -/
def to_json : Val → Res Val
  | .elem (.Doc metadata items _) =>
    (metawalkVPairs metadata).bind fun m =>
      .ok (.list (.cons (.dict (.cons "unMeta" (.dict m) .nil))
        (.cons items .nil)))
  | .elem e => .ok (encodeElem e)
  | _ => .err .attributeError

-- ---------------------------
-- Decoder (from_json and the object_pairs_hook pipeline)
-- ---------------------------

/-- Wrap a reconstructed element into the decoder's return value. -/
def asElem (r : Res Elem) : Res Val :=
  r.bind fun e => .ok (.elem e)

/-- The tag dispatch of `from_json` (source lines 804-909): `tag` and
`c` are `data[0][1]` and `data[1][1]`; the chain of `elif tag == ...`
comparisons is mirrored in order.  Argument expressions of each
constructor call are evaluated left to right exactly as written in the
source (the starred iterable is unpacked before the keyword values are
evaluated).  A tag outside the known universe reaches the final
`raise Exception('unknown tag ' + tag)`. -/
def from_json_tagged (tagv : Val) (c : Val) : Res Val :=
  match tagv with
  | .str tag =>
    if tag = "Null" then .ok (.elem .Null)
    else if tag = "Space" then .ok (.elem .Space)
    else if tag = "HorizontalRule" then .ok (.elem .HorizontalRule)
    else if tag = "SoftBreak" then .ok (.elem .SoftBreak)
    else if tag = "LineBreak" then .ok (.elem .LineBreak)
    else if tag = "Plain" then asElem ((pyIter c).bind mkPlain)
    else if tag = "Para" then asElem ((pyIter c).bind mkPara)
    else if tag = "BlockQuote" then asElem ((pyIter c).bind mkBlockQuote)
    else if tag = "Emph" then asElem ((pyIter c).bind mkEmph)
    else if tag = "Strong" then asElem ((pyIter c).bind mkStrong)
    else if tag = "Strikeout" then asElem ((pyIter c).bind mkStrikeout)
    else if tag = "Superscript" then asElem ((pyIter c).bind mkSuperscript)
    else if tag = "Subscript" then asElem ((pyIter c).bind mkSubscript)
    else if tag = "SmallCaps" then asElem ((pyIter c).bind mkSmallCaps)
    else if tag = "Note" then asElem ((pyIter c).bind mkNote)
    else if tag = "Header" then
      asElem ((pyGetItem c 2).bind fun c2 =>
        (pyIter c2).bind fun args =>
        (pyGetItem c 0).bind fun c0 =>
        (pyGetItem c 1).bind fun c1 =>
        (pyGetItem c1 0).bind fun c10 =>
        (pyGetItem c1 1).bind fun c11 =>
        (pyGetItem c1 2).bind fun c12 =>
        mkHeader args c0 c10 c11 c12)
    else if tag = "Div" then
      asElem ((pyGetItem c 1).bind fun c1 =>
        (pyIter c1).bind fun args =>
        (pyGetItem c 0).bind fun c0 =>
        (pyGetItem c0 0).bind fun c00 =>
        (pyGetItem c0 1).bind fun c01 =>
        (pyGetItem c0 2).bind fun c02 =>
        mkDiv args c00 c01 c02)
    else if tag = "Span" then
      asElem ((pyGetItem c 1).bind fun c1 =>
        (pyIter c1).bind fun args =>
        (pyGetItem c 0).bind fun c0 =>
        (pyGetItem c0 0).bind fun c00 =>
        (pyGetItem c0 1).bind fun c01 =>
        (pyGetItem c0 2).bind fun c02 =>
        mkSpan args c00 c01 c02)
    else if tag = "Quoted" then
      asElem ((pyGetItem c 1).bind fun c1 =>
        (pyIter c1).bind fun args =>
        (pyGetItem c 0).bind fun c0 =>
        mkQuoted args c0)
    else if tag = "Cite" then
      asElem ((pyGetItem c 1).bind fun c1 =>
        (pyIter c1).bind fun args =>
        (pyGetItem c 0).bind fun c0 =>
        mkCite args c0)
    else if tag = "Link" then
      asElem ((pyGetItem c 1).bind fun c1 =>
        (pyIter c1).bind fun args =>
        (pyGetItem c 2).bind fun c2 =>
        (pyGetItem c2 0).bind fun c20 =>
        (pyGetItem c2 1).bind fun c21 =>
        (pyGetItem c 0).bind fun c0 =>
        (pyGetItem c0 0).bind fun c00 =>
        (pyGetItem c0 1).bind fun c01 =>
        (pyGetItem c0 2).bind fun c02 =>
        mkLink args c20 c21 c00 c01 c02)
    else if tag = "Image" then
      asElem ((pyGetItem c 1).bind fun c1 =>
        (pyIter c1).bind fun args =>
        (pyGetItem c 2).bind fun c2 =>
        (pyGetItem c2 0).bind fun c20 =>
        (pyGetItem c2 1).bind fun c21 =>
        (pyGetItem c 0).bind fun c0 =>
        (pyGetItem c0 0).bind fun c00 =>
        (pyGetItem c0 1).bind fun c01 =>
        (pyGetItem c0 2).bind fun c02 =>
        mkImage args c20 c21 c00 c01 c02)
    else if tag = "Str" then asElem (mkStr c)
    else if tag = "CodeBlock" then
      asElem ((pyGetItem c 1).bind fun c1 =>
        (pyGetItem c 0).bind fun c0 =>
        (pyGetItem c0 0).bind fun c00 =>
        (pyGetItem c0 1).bind fun c01 =>
        (pyGetItem c0 2).bind fun c02 =>
        mkCodeBlock c1 c00 c01 c02)
    else if tag = "RawBlock" then
      asElem ((pyGetItem c 1).bind fun c1 =>
        (pyGetItem c 0).bind fun c0 =>
        mkRawBlock c1 c0)
    else if tag = "Code" then
      asElem ((pyGetItem c 1).bind fun c1 =>
        (pyGetItem c 0).bind fun c0 =>
        (pyGetItem c0 0).bind fun c00 =>
        (pyGetItem c0 1).bind fun c01 =>
        (pyGetItem c0 2).bind fun c02 =>
        mkCode c1 c00 c01 c02)
    else if tag = "Math" then
      asElem ((pyGetItem c 1).bind fun c1 =>
        (pyGetItem c 0).bind fun c0 =>
        mkMath c1 c0)
    else if tag = "RawInline" then
      asElem ((pyGetItem c 1).bind fun c1 =>
        (pyGetItem c 0).bind fun c0 =>
        mkRawInline c1 c0)
    else if tag = "BulletList" then asElem ((pyIter c).bind mkBulletList)
    else if tag = "OrderedList" then
      asElem ((pyGetItem c 1).bind fun c1 =>
        (pyIter c1).bind fun args =>
        (pyGetItem c 0).bind fun c0 =>
        (pyGetItem c0 0).bind fun c00 =>
        (pyGetItem c0 1).bind fun c01 =>
        (pyGetItem c0 2).bind fun c02 =>
        mkOrderedList args c00 c01 c02)
    else if tag = "DefinitionList" then
      asElem ((pyIter c).bind mkDefinitionList)
    else if tag = "Table" then
      asElem ((pyGetItem c 4).bind fun c4 =>
        (pyIter c4).bind fun args =>
        (pyGetItem c 0).bind fun c0 =>
        (pyGetItem c 1).bind fun c1 =>
        (pyGetItem c 2).bind fun c2 =>
        (pyGetItem c 3).bind fun c3 =>
        mkTable args c3 c0 c1 c2)
    else if tag = "MetaList" then .ok c
    else if tag = "MetaMap" then (pyDict c).bind fun d => .ok (.dict d)
    else if tag = "MetaInlines" then asElem ((pyIter c).bind mkMetaInlines)
    else if tag = "MetaBlocks" then asElem ((pyIter c).bind mkMetaBlocks)
    else if tag = "MetaString" then .ok c
    else if tag = "MetaBool" then
      if pyEq c (.bool true) || pyEq c (.bool false) then .ok c
      else .err .assertionError
    else if strIn tag SPECIAL_ELEMENTS then .ok (.str tag)
    else .err (.unknownTag tag)
  | _ => .err .typeError

/-- `from_json(data)` (source lines 785-909), the `object_pairs_hook`:
`data` is the key/value pair list of one JSON object whose values have
already been decoded bottom-up.  An empty object returns the empty list
`[]`; a first key other than `'t'` is either the `'unMeta'` wrapper
(asserted to be the only pair; its payload is copied into an
`OrderedDict`) or returned unchanged (a pair list, conflated here with
`Val.dict`, see the header comment); otherwise the second pair must
hold key `'c'` (`IndexError` when there is no second pair) and the tag
is dispatched. -/
def from_json (data : VPairs) : Res Val :=
  match data with
  | .nil => .ok (.list .nil)
  | .cons k0 v0 tl =>
    if k0 = "t" then
      match tl with
      | .nil => .err .indexError
      | .cons k1 c _ =>
        if k1 = "c" then from_json_tagged v0 c else .err .assertionError
    else if k0 = "unMeta" then
      match tl with
      | .nil => (pyDict v0).bind fun d => .ok (.dict d)
      | .cons _ _ _ => .err .assertionError
    else .ok (.dict data)

mutual

/-- The decode pipeline
`json.load(..., object_pairs_hook=from_json)` applied to a wire value:
scalars pass through, arrays are decoded elementwise, and every object
is decoded bottom-up — its values first, then `from_json` on the
resulting pair list. -/
def decodeVal : Val → Res Val
  | .list xs => (decodeVList xs).bind fun ys => .ok (.list ys)
  | .dict ps => (decodeVPairs ps).bind fun qs => from_json qs
  | v => .ok v

/-- Elementwise decoding of an array's items. -/
def decodeVList : VList → Res VList
  | .nil => .ok .nil
  | .cons x tl =>
    (decodeVal x).bind fun y =>
      (decodeVList tl).bind fun ys => .ok (.cons y ys)

/-- Valuewise decoding of an object's pairs. -/
def decodeVPairs : VPairs → Res VPairs
  | .nil => .ok .nil
  | .cons k v tl =>
    (decodeVal v).bind fun w =>
      (decodeVPairs tl).bind fun ws => .ok (.cons k w ws)

end

-- ---------------------------
-- Doc.get_metadata (source lines 21-36)
-- ---------------------------

/-- Python `request.split('.')` over the characters of the request. -/
def pySplitDot : List Char → List String
  | [] => [""]
  | ch :: rest =>
    let r := pySplitDot rest
    if ch = '.' then "" :: r
    else
      match r with
      | [] => [String.mk [ch]]
      | h :: t => String.mk (ch :: h.data) :: t

/-- `key in meta` as `get_metadata`'s loop evaluates it: key membership
for a mapping, substring test for a string, elementwise `==` for a
list, `TypeError` for values that support no `in`. -/
def pyContainsKey (key : String) (meta : Val) : Res Bool :=
  match meta with
  | .dict ps => .ok (ps.hasKey key)
  | .str s => .ok (listInfix key.data s.data)
  | .list xs => .ok (vlistHasStr xs key)
  | _ => .err .typeError
where
  /-- `x == key` for each element (only an equal string matches). -/
  vlistHasStr : VList → String → Bool
  | .nil, _ => false
  | .cons x tl, k => if pyEq x (.str k) then true else vlistHasStr tl k
  /-- substring test on character lists -/
  listInfix (needle : List Char) (hay : List Char) : Bool :=
    if listStart needle hay then true else
      match hay with
      | [] => false
      | _ :: tl => listInfix needle tl
  /-- whether `needle` is an initial run of `hay` -/
  listStart : List Char → List Char → Bool
  | [], _ => true
  | _ :: _, [] => false
  | a :: as, b :: bs => if a = b then listStart as bs else false

/-- `meta[key]` as the loop evaluates it after a successful `in`: only a
mapping yields a value; indexing a string or list with a string key is
a `TypeError`. -/
def pyGetKey (key : String) (meta : Val) : Res Val :=
  match meta with
  | .dict ps =>
    match ps.find? key with
    | some v => .ok v
    | Option.none => .err .keyError
  | _ => .err .typeError

/-- The `for key in keys` loop of `get_metadata`. -/
def get_metadata_go (meta : Val) (keys : List String) (default : Val) :
    Res Val :=
  match keys with
  | [] => .ok meta
  | k :: ks =>
    (pyContainsKey k meta).bind fun present =>
      if present then
        (pyGetKey k meta).bind fun next => get_metadata_go next ks default
      else .ok default

/-- `Doc.get_metadata(request, default)`: split the request on `'.'` and
walk the metadata, returning the default at the first missing key. -/
def get_metadata (metadata : VPairs) (request : String) (default : Val) :
    Res Val :=
  get_metadata_go (.dict metadata) (pySplitDot request.data) default

-- ---------------------------
-- The round-tripping constructible fragment
-- ---------------------------

/-- Whether a stored attributes mapping is empty. -/
def attrsNil : VPairs → Bool
  | .nil => true
  | .cons _ _ _ => false

/-- Whether a stored `classes` value is a list of strings (the shape
the wire format's attribute triple prescribes). -/
def isStrList : Val → Bool
  | .list xs => vlistAllStr xs
  | _ => false

/-- Exactly the acceptance condition of `validate(level, group=(1, ...,
6))`: the stored level is Python-`==` to one of 1..6 (so `True` and
`2.0` qualify alongside the integers). -/
def levelOK (lv : Val) : Bool :=
  LEVEL_GROUP.any (fun y => pyEq lv y)

/-- Exactly the acceptance condition of `init_ssd` on the stored start:
`start == int(start)` and `0 <= start` (so a bool or a float with zero
fractional part qualifies; a numeric string does not, since
`'3' == 3` is false). -/
def startOK (st : Val) : Bool :=
  match pyToInt st with
  | .ok i =>
    pyEq st (.int i) &&
      (match pyLe (.int 0) st with
       | .ok b => b
       | .err _ => false)
  | .err _ => false

/-- The stored `classes` shapes that decode back to themselves: a list
of strings, or a non-empty string (iterating it yields its characters,
all strings, so `init_ica` accepts it; it is emitted and re-read
unchanged).  A dict-shaped classes value is also constructible, but its
wire occurrence is itself fed through the decode hook, which breaks the
round trip — see `classes_dict_roundtrip_fails`. -/
def classesOK : Val → Bool
  | .list xs => vlistAllStr xs
  | .str s => decide (s ≠ "")
  | _ => false

mutual

/-- The fragment of element trees for which encode-then-decode is the
identity: children carry the capability their parent requires, the
enumerated fields hold members of their sets, `Header.level` and
`OrderedList.start` satisfy exactly their validators' acceptance
conditions (`levelOK`/`startOK`), classes are string lists or non-empty
strings (`classesOK`), every attribute bundle is empty (a non-empty one
makes the decoder's `init_ica` assertion fail, see the counterexample),
there are no citation records (the `Citation` constructor always
raises), and no `Table` or non-empty `DefinitionList` (their
constructors always raise, so the decoder can never rebuild them). -/
def goodE : Elem → Bool
  | .Null => true
  | .Space => true
  | .HorizontalRule => true
  | .SoftBreak => true
  | .LineBreak => true
  | .Plain its => goodEL false its
  | .Para its => goodEL false its
  | .BlockQuote its => goodEL true its
  | .Emph its => goodEL false its
  | .Strong its => goodEL false its
  | .Strikeout its => goodEL false its
  | .Superscript its => goodEL false its
  | .Subscript its => goodEL false its
  | .SmallCaps its => goodEL false its
  | .Note its => goodEL true its
  | .Header lv _ cls attrs its =>
    levelOK lv && classesOK cls && attrsNil attrs && goodEL false its
  | .Div _ cls attrs its => classesOK cls && attrsNil attrs && goodEL true its
  | .Span _ cls attrs its => classesOK cls && attrsNil attrs && goodEL false its
  | .Quoted qt its => strIn qt QUOTE_TYPES && goodEL false its
  | .Cite cits its =>
    (match cits with | .nil => true | .cons _ _ => false) && goodEL false its
  | .Link _ cls attrs its _ _ =>
    classesOK cls && attrsNil attrs && goodEL false its
  | .Image _ cls attrs its _ _ =>
    classesOK cls && attrsNil attrs && goodEL false its
  | .Str _ => true
  | .CodeBlock _ _ cls attrs => classesOK cls && attrsNil attrs
  | .RawBlock _ f => strIn f RAW_FORMATS
  | .Code _ _ cls attrs => classesOK cls && attrsNil attrs
  | .Math _ f => strIn f MATH_FORMATS
  | .RawInline _ f => strIn f RAW_FORMATS
  | .BulletList rows => goodELL true rows
  | .OrderedList rows st sty delim =>
    goodELL true rows && startOK st
    && strIn sty LIST_NUMBER_STYLES && strIn delim LIST_NUMBER_DELIMITERS
  | .DefinitionList its =>
    (match its with | .nil => true | .cons _ _ _ => false)
  | .Table _ _ _ _ _ _ _ => false
  | .MetaInlines its => goodEL false its
  | .MetaBlocks its => goodEL true its
  | .Doc _ _ _ => false

/-- All children good and of the required capability. -/
def goodEL (has_blocks : Bool) : EList → Bool
  | .nil => true
  | .cons e tl =>
    (if has_blocks then isBlock e else isInline e) && goodE e
      && goodEL has_blocks tl

/-- All rows of children good. -/
def goodELL (has_blocks : Bool) : ELL → Bool
  | .nil => true
  | .cons row tl => goodEL has_blocks row && goodELL has_blocks tl

end

/-- The decoded form of a validated child list: each element wrapped as
a value. -/
def elemsVals : EList → VList
  | .nil => .nil
  | .cons e tl => .cons (.elem e) (elemsVals tl)

/-- The decoded form of a row list. -/
def rowsVals : ELL → VList
  | .nil => .nil
  | .cons row tl => .cons (.list (elemsVals row)) (rowsVals tl)

-- ---------------------------
-- Small evaluation lemmas
-- ---------------------------

@[simp] theorem decodeVal_str (s : String) : decodeVal (.str s) = .ok (.str s) := rfl

@[simp] theorem decodeVal_int (n : Int) : decodeVal (.int n) = .ok (.int n) := rfl

@[simp] theorem decodeVal_bool (b : Bool) : decodeVal (.bool b) = .ok (.bool b) := rfl

@[simp] theorem decodeVal_float (q : Rat) : decodeVal (.float q) = .ok (.float q) := rfl

theorem decodeVal_list (xs : VList) :
    decodeVal (.list xs) = (decodeVList xs).bind fun ys => .ok (.list ys) := rfl

theorem decodeVal_dict (ps : VPairs) :
    decodeVal (.dict ps) = (decodeVPairs ps).bind from_json := rfl

@[simp] theorem decodeVList_nil : decodeVList .nil = .ok .nil := rfl

theorem decodeVList_cons (x : Val) (tl : VList) :
    decodeVList (.cons x tl) =
      (decodeVal x).bind fun y =>
        (decodeVList tl).bind fun ys => .ok (.cons y ys) := rfl

@[simp] theorem decodeVPairs_nil : decodeVPairs .nil = .ok .nil := rfl

theorem decodeVPairs_cons (k : String) (v : Val) (tl : VPairs) :
    decodeVPairs (.cons k v tl) =
      (decodeVal v).bind fun w =>
        (decodeVPairs tl).bind fun ws => .ok (.cons k w ws) := rfl

/-- A list of strings decodes to itself. -/
theorem decode_strlist : ∀ (xs : VList), vlistAllStr xs = true →
    decodeVList xs = .ok xs
  | .nil, _ => rfl
  | .cons (.str s) tl, h => by
    have htl := decode_strlist tl (by simpa [vlistAllStr] using h)
    simp [decodeVList_cons, htl]

/-- A stored class list decodes to itself. -/
theorem decode_strlistVal (cls : Val) (h : isStrList cls = true) :
    decodeVal cls = .ok cls := by
  match cls, h with
  | .list xs, h =>
    simp only [isStrList] at h
    simp [decodeVal_list, decode_strlist xs h]

/-- A validated child passes `validate_item` again. -/
theorem validate_item_elem_ok (e : Elem) (b : Bool) (name : String)
    (h : (if b then isBlock e else isInline e) = true) :
    validate_item (.elem e) b name = .ok e := by
  simp [validate_item, resolve_callable, h]

/-- The decoded children of a validated list revalidate to the same
list. -/
theorem init_items1_elems (name : String) (b : Bool) :
    ∀ (its : EList), goodEL b its = true →
      init_items1 name (elemsVals its) b = .ok its
  | .nil, _ => rfl
  | .cons e tl, h => by
    simp only [goodEL, Bool.and_eq_true] at h
    obtain ⟨⟨hc, _⟩, htl⟩ := h
    have ih := init_items1_elems name b tl htl
    simp [elemsVals, init_items1, validate_item_elem_ok e b name hc, ih]

/-- Likewise for rows of children (depth 2). -/
theorem init_items2_rows (name : String) (b : Bool) :
    ∀ (rows : ELL), goodELL b rows = true →
      init_items2 name (rowsVals rows) b = .ok rows
  | .nil, _ => rfl
  | .cons row tl, h => by
    simp only [goodELL, Bool.and_eq_true] at h
    obtain ⟨hrow, htl⟩ := h
    have ih := init_items2_rows name b tl htl
    simp [rowsVals, init_items2, init_itemsRow, pyIter,
      init_items1_elems name b row hrow, ih]

/-- Iterating a string yields one-character strings. -/
theorem vlistAllStr_strChars : ∀ (cs : List Char),
    vlistAllStr (strCharsV cs) = true
  | [] => rfl
  | c :: cs => by simp [strCharsV, vlistAllStr, vlistAllStr_strChars cs]

/-- A round-trippable class value decodes to itself. -/
theorem decode_classesVal (cls : Val) (h : classesOK cls = true) :
    decodeVal cls = .ok cls := by
  match cls, h with
  | .list xs, h =>
    simp only [classesOK] at h
    simp [decodeVal_list, decode_strlist xs h]
  | .str s, _ => rfl

/-- A §6-shaped (string-list) class value is in particular
round-trippable. -/
theorem classesOK_of_isStrList (cls : Val) (h : isStrList cls = true) :
    classesOK cls = true := by
  cases cls <;> simp_all [isStrList, classesOK]

/-- `init_ica` on the shapes the decoder passes back (identifier
string, round-trippable classes, empty attribute pair list) returns
them unchanged, with the empty attribute list normalized to an empty
mapping. -/
theorem init_ica_rt (idt : String) (cls : Val) (h : classesOK cls = true) :
    init_ica (.str idt) cls (.list .nil) = .ok (idt, cls, .nil) := by
  match cls, h with
  | .list .nil, _ => rfl
  | .list (.cons x xs), h =>
    simp only [classesOK] at h
    simp [init_ica, pyTruthy, pyIter, h]
  | .str s, h =>
    simp only [classesOK] at h
    simp [init_ica, pyTruthy, h, pyIter, vlistAllStr_strChars]

/-- An `encode_ica` wire value (empty attributes) decodes to itself. -/
theorem decode_ica_wire (idt : String) (cls : Val) (h : classesOK cls = true) :
    decodeVal (encode_ica idt cls .nil) = .ok (encode_ica idt cls .nil) := by
  simp [encode_ica, attrItemsV, decodeVal_list, decodeVList_cons,
    decode_classesVal cls h]

/-- The bare tagged wire form of an enumeration member decodes to the
member string (the dispatch falls through every element tag to the
`SPECIAL_ELEMENTS` case). -/
theorem decode_enum_wire (s : String)
    (h : strIn s SPECIAL_ELEMENTS = true) :
    decodeVal (encode_dict s (.list .nil)) = .ok (.str s) := by
  have h' := h
  simp only [SPECIAL_ELEMENTS, LIST_NUMBER_STYLES, LIST_NUMBER_DELIMITERS,
    MATH_FORMATS, TABLE_ALIGNMENT, QUOTE_TYPES, CITATION_MODE,
    List.cons_append, List.nil_append, strIn, Bool.or_eq_true,
    decide_eq_true_eq, Bool.false_eq_true, or_false] at h'
  rcases h' with rfl|rfl|rfl|rfl|rfl|rfl|rfl|rfl|rfl|rfl|rfl|rfl|rfl|rfl|
    rfl|rfl|rfl|rfl|rfl|rfl|rfl|rfl <;> rfl

/-- An integer level in 1..6 satisfies the level validator's
acceptance condition. -/
theorem levelOK_int (n : Int) (h1 : 1 ≤ n) (h2 : n ≤ 6) :
    levelOK (.int n) = true := by
  interval_cases n <;> rfl

/-- `validate(level, group=(1, ..., 6))` returns any accepted level
unchanged. -/
theorem validate_levelOK (lv : Val) (h : levelOK lv = true) :
    validate_group lv LEVEL_GROUP = .ok lv := by
  unfold levelOK at h
  simp [validate_group, h]

/-- An accepted level is a number and passes through the decode hook
unchanged. -/
theorem decodeVal_levelOK (lv : Val) (h : levelOK lv = true) :
    decodeVal lv = .ok lv := by
  cases lv <;> first
    | rfl
    | simp [levelOK, LEVEL_GROUP, pyEq, pyNum, List.any_cons, List.any_nil,
        Bool.false_eq_true] at h

/-- A non-negative integer start satisfies `init_ssd`'s acceptance
condition. -/
theorem startOK_int (n : Int) (h : 0 ≤ n) : startOK (.int n) = true := by
  have hq : ((0 : Rat) ≤ (n : Rat)) := by exact_mod_cast h
  simp [startOK, pyToInt, pyEq, pyNum, pyLe, hq]

/-- An accepted start is a number and passes through the decode hook
unchanged. -/
theorem decodeVal_startOK (st : Val) (h : startOK st = true) :
    decodeVal st = .ok st := by
  cases st with
  | bool b => rfl
  | int n => rfl
  | float q => rfl
  | str s =>
    simp only [startOK, pyToInt] at h
    cases hti : s.toInt? with
    | none => rw [hti] at h; simp at h
    | some i => rw [hti] at h; simp [pyEq, pyNum] at h
  | none => simp [startOK, pyToInt] at h
  | list xs => simp [startOK, pyToInt] at h
  | dict ps => simp [startOK, pyToInt] at h
  | elem e => simp [startOK, pyToInt] at h
  | thunk e => simp [startOK, pyToInt] at h

/-- `init_ssd` returns any accepted start and valid style and delimiter
unchanged. -/
theorem init_ssd_ok (st : Val) (sty delim : String) (h : startOK st = true)
    (hs : strIn sty LIST_NUMBER_STYLES = true)
    (hd : strIn delim LIST_NUMBER_DELIMITERS = true) :
    init_ssd st (.str sty) (.str delim) = .ok (st, sty, delim) := by
  simp only [startOK] at h
  cases hti : pyToInt st with
  | err e => rw [hti] at h; simp at h
  | ok i =>
    rw [hti] at h
    simp only [Bool.and_eq_true] at h
    obtain ⟨hpe, hle⟩ := h
    cases hlec : pyLe (.int 0) st with
    | err e => rw [hlec] at hle; simp at hle
    | ok b =>
      rw [hlec] at hle
      have hb : b = true := by simpa using hle
      simp [init_ssd, hti, hpe, hlec, hb, validate_group_str, hs, hd]

theorem rt_header (its : EList) (lv : Val) (idt : String) (cls : Val)
    (hlv : levelOK lv = true) (hc : classesOK cls = true)
    (hits : decodeVList (encodeEList its) = .ok (elemsVals its)) (hg : goodEL false its = true) :
    decodeVal (encodeElem (.Header lv idt cls .nil its)) =
      .ok (.elem (.Header lv idt cls .nil its)) := by
  simp [encodeElem, elemName, encodeContent, encode_dict, decodeVal_dict,
    decodeVPairs_cons, decodeVPairs_nil, decodeVal_list, decodeVList_cons, hits, from_json,
    from_json_tagged, asElem, pyIter, pyGetItem, VList.get?,
    decodeVal_levelOK lv hlv, encode_ica, attrItemsV, decode_classesVal cls hc,
    mkHeader, validate_levelOK lv hlv, init_ica_rt idt cls hc,
    init_items1_elems _ _ its hg]

theorem rt_quoted (its : EList) (qt : String) (hq : strIn qt QUOTE_TYPES = true)
    (hits : decodeVList (encodeEList its) = .ok (elemsVals its)) (hg : goodEL false its = true) :
    decodeVal (encodeElem (.Quoted qt its)) = .ok (.elem (.Quoted qt its)) := by
  have hsp : strIn qt SPECIAL_ELEMENTS = true := by
    simp only [QUOTE_TYPES, strIn, Bool.or_eq_true, decide_eq_true_eq,
      Bool.false_eq_true, or_false] at hq
    rcases hq with rfl|rfl <;> rfl
  have hdec := decode_enum_wire qt hsp
  simp [encodeElem, elemName, encodeContent, encode_dict] at hdec ⊢
  simp [decodeVal_dict, decodeVPairs_cons, decodeVPairs_nil, decodeVal_list,
    decodeVList_cons, hits, hdec, from_json, from_json_tagged, asElem, pyIter,
    pyGetItem, VList.get?, mkQuoted, validate_group_str, hq,
    init_items1_elems _ _ its hg]

theorem rt_orderedlist (rows : ELL) (st : Val) (sty delim : String)
    (hst : startOK st = true)
    (hs : strIn sty LIST_NUMBER_STYLES = true)
    (hd : strIn delim LIST_NUMBER_DELIMITERS = true)
    (hrows : decodeVList (encodeELL rows) = .ok (rowsVals rows))
    (hg : goodELL true rows = true) :
    decodeVal (encodeElem (.OrderedList rows st sty delim)) =
      .ok (.elem (.OrderedList rows st sty delim)) := by
  have hsps : strIn sty SPECIAL_ELEMENTS = true := by
    simp only [LIST_NUMBER_STYLES, strIn, Bool.or_eq_true, decide_eq_true_eq,
      Bool.false_eq_true, or_false] at hs
    rcases hs with rfl|rfl|rfl|rfl|rfl|rfl|rfl <;> rfl
  have hspd : strIn delim SPECIAL_ELEMENTS = true := by
    simp only [LIST_NUMBER_DELIMITERS, strIn, Bool.or_eq_true, decide_eq_true_eq,
      Bool.false_eq_true, or_false] at hd
    rcases hd with rfl|rfl|rfl|rfl <;> rfl
  have hdecs := decode_enum_wire sty hsps
  have hdecd := decode_enum_wire delim hspd
  simp [encode_dict] at hdecs hdecd
  simp [encodeElem, elemName, encodeContent, encode_dict, decodeVal_dict,
    decodeVPairs_cons, decodeVPairs_nil, decodeVal_list, decodeVList_cons,
    hrows, hdecs, hdecd, decodeVal_startOK st hst, from_json,
    from_json_tagged, asElem, pyIter, pyGetItem, VList.get?, mkOrderedList,
    init_items2_rows _ _ rows hg, init_ssd_ok st sty delim hst hs hd]

theorem rt_link (its : EList) (idt : String) (cls : Val) (u t : String)
    (hc : classesOK cls = true)
    (hits : decodeVList (encodeEList its) = .ok (elemsVals its))
    (hg : goodEL false its = true) :
    decodeVal (encodeElem (.Link idt cls .nil its u t)) =
      .ok (.elem (.Link idt cls .nil its u t)) := by
  simp [encodeElem, elemName, encodeContent, encode_dict, decodeVal_dict,
    decodeVPairs_cons, decodeVPairs_nil, decodeVal_list, decodeVList_cons,
    hits, from_json, from_json_tagged, asElem, pyIter, pyGetItem, VList.get?,
    encode_ica, attrItemsV, decode_classesVal cls hc, mkLink, init_ut,
    validate_str, init_ica_rt idt cls hc, init_items1_elems _ _ its hg]

theorem rt_cite (its : EList)
    (hits : decodeVList (encodeEList its) = .ok (elemsVals its))
    (hg : goodEL false its = true) :
    decodeVal (encodeElem (.Cite .nil its)) = .ok (.elem (.Cite .nil its)) := by
  simp [encodeElem, elemName, encodeContent, encode_dict, decodeVal_dict,
    decodeVPairs_cons, decodeVPairs_nil, decodeVal_list, decodeVList_cons,
    encodeCitList, hits, from_json, from_json_tagged, asElem, pyIter,
    pyGetItem, VList.get?, mkCite, mkCitations, init_items1_elems _ _ its hg]

theorem rt_bulletlist (rows : ELL)
    (hrows : decodeVList (encodeELL rows) = .ok (rowsVals rows))
    (hg : goodELL true rows = true) :
    decodeVal (encodeElem (.BulletList rows)) = .ok (.elem (.BulletList rows)) := by
  simp [encodeElem, elemName, encodeContent, encode_dict, decodeVal_dict,
    decodeVPairs_cons, decodeVPairs_nil, decodeVal_list, hrows, from_json,
    from_json_tagged, asElem, pyIter, mkBulletList, init_items2_rows _ _ rows hg]

theorem rt_str (s : String) :
    decodeVal (encodeElem (.Str s)) = .ok (.elem (.Str s)) := rfl

theorem rt_rawblock (s f : String) (hf : strIn f RAW_FORMATS = true) :
    decodeVal (encodeElem (.RawBlock s f)) = .ok (.elem (.RawBlock s f)) := by
  simp [encodeElem, elemName, encodeContent, encode_dict, decodeVal_dict,
    decodeVPairs_cons, decodeVPairs_nil, decodeVal_list, decodeVList_cons,
    from_json, from_json_tagged, asElem, pyGetItem, VList.get?, mkRawBlock,
    validate_str, validate_group_str, hf]

theorem rt_math (s f : String) (hf : strIn f MATH_FORMATS = true) :
    decodeVal (encodeElem (.Math s f)) = .ok (.elem (.Math s f)) := by
  have hsp : strIn f SPECIAL_ELEMENTS = true := by
    simp only [MATH_FORMATS, strIn, Bool.or_eq_true, decide_eq_true_eq,
      Bool.false_eq_true, or_false] at hf
    rcases hf with rfl|rfl <;> rfl
  have hdec := decode_enum_wire f hsp
  simp [encode_dict] at hdec
  simp [encodeElem, elemName, encodeContent, encode_dict, decodeVal_dict,
    decodeVPairs_cons, decodeVPairs_nil, decodeVal_list, decodeVList_cons,
    hdec, from_json, from_json_tagged, asElem, pyGetItem, VList.get?, mkMath,
    validate_str, validate_group_str, hf]

theorem rt_codeblock (s idt : String) (cls : Val) (hc : classesOK cls = true) :
    decodeVal (encodeElem (.CodeBlock s idt cls .nil)) =
      .ok (.elem (.CodeBlock s idt cls .nil)) := by
  simp [encodeElem, elemName, encodeContent, encode_dict, decodeVal_dict,
    decodeVPairs_cons, decodeVPairs_nil, decodeVal_list, decodeVList_cons,
    encode_ica, attrItemsV, decode_classesVal cls hc, from_json,
    from_json_tagged, asElem, pyGetItem, VList.get?, mkCodeBlock,
    validate_str, init_ica_rt idt cls hc]

theorem rt_div (its : EList) (idt : String) (cls : Val)
    (hc : classesOK cls = true)
    (hits : decodeVList (encodeEList its) = .ok (elemsVals its))
    (hg : goodEL true its = true) :
    decodeVal (encodeElem (.Div idt cls .nil its)) =
      .ok (.elem (.Div idt cls .nil its)) := by
  simp [encodeElem, elemName, encodeContent, encode_dict, decodeVal_dict,
    decodeVPairs_cons, decodeVPairs_nil, decodeVal_list, decodeVList_cons,
    hits, from_json, from_json_tagged, asElem, pyIter, pyGetItem, VList.get?,
    encode_ica, attrItemsV, decode_classesVal cls hc, mkDiv,
    init_ica_rt idt cls hc, init_items1_elems _ _ its hg]

theorem rt_deflist : decodeVal (encodeElem (.DefinitionList .nil)) =
    .ok (.elem (.DefinitionList .nil)) := rfl

theorem rt_metainlines (its : EList)
    (hits : decodeVList (encodeEList its) = .ok (elemsVals its))
    (hg : goodEL false its = true) :
    decodeVal (encodeElem (.MetaInlines its)) = .ok (.elem (.MetaInlines its)) := by
  simp [encodeElem, elemName, encodeContent, encode_dict, decodeVal_dict,
    decodeVPairs_cons, decodeVPairs_nil, decodeVal_list, hits, from_json,
    from_json_tagged, asElem, pyIter, mkMetaInlines, init_items1_elems _ _ its hg]

theorem rt_para (its : EList) (hits : decodeVList (encodeEList its) = .ok (elemsVals its)) (hg : goodEL false its = true) :
    decodeVal (encodeElem (.Para its)) = .ok (.elem (.Para its)) := by
  simp [encodeElem, elemName, encodeContent, encode_dict, decodeVal_dict,
    decodeVPairs_cons, decodeVPairs_nil, decodeVal_list, hits, from_json,
    from_json_tagged, asElem, pyIter, mkPara, init_items1_elems _ _ its hg]

theorem rt_plain (its : EList) (hits : decodeVList (encodeEList its) = .ok (elemsVals its)) (hg : goodEL false its = true) :
    decodeVal (encodeElem (.Plain its)) = .ok (.elem (.Plain its)) := by
  simp [encodeElem, elemName, encodeContent, encode_dict, decodeVal_dict,
    decodeVPairs_cons, decodeVPairs_nil, decodeVal_list, hits, from_json,
    from_json_tagged, asElem, pyIter, mkPlain, init_items1_elems _ _ its hg]

theorem rt_blockquote (its : EList) (hits : decodeVList (encodeEList its) = .ok (elemsVals its)) (hg : goodEL true its = true) :
    decodeVal (encodeElem (.BlockQuote its)) = .ok (.elem (.BlockQuote its)) := by
  simp [encodeElem, elemName, encodeContent, encode_dict, decodeVal_dict,
    decodeVPairs_cons, decodeVPairs_nil, decodeVal_list, hits, from_json,
    from_json_tagged, asElem, pyIter, mkBlockQuote, init_items1_elems _ _ its hg]

theorem rt_emph (its : EList) (hits : decodeVList (encodeEList its) = .ok (elemsVals its)) (hg : goodEL false its = true) :
    decodeVal (encodeElem (.Emph its)) = .ok (.elem (.Emph its)) := by
  simp [encodeElem, elemName, encodeContent, encode_dict, decodeVal_dict,
    decodeVPairs_cons, decodeVPairs_nil, decodeVal_list, hits, from_json,
    from_json_tagged, asElem, pyIter, mkEmph, init_items1_elems _ _ its hg]

theorem rt_strong (its : EList) (hits : decodeVList (encodeEList its) = .ok (elemsVals its)) (hg : goodEL false its = true) :
    decodeVal (encodeElem (.Strong its)) = .ok (.elem (.Strong its)) := by
  simp [encodeElem, elemName, encodeContent, encode_dict, decodeVal_dict,
    decodeVPairs_cons, decodeVPairs_nil, decodeVal_list, hits, from_json,
    from_json_tagged, asElem, pyIter, mkStrong, init_items1_elems _ _ its hg]

theorem rt_strikeout (its : EList) (hits : decodeVList (encodeEList its) = .ok (elemsVals its)) (hg : goodEL false its = true) :
    decodeVal (encodeElem (.Strikeout its)) = .ok (.elem (.Strikeout its)) := by
  simp [encodeElem, elemName, encodeContent, encode_dict, decodeVal_dict,
    decodeVPairs_cons, decodeVPairs_nil, decodeVal_list, hits, from_json,
    from_json_tagged, asElem, pyIter, mkStrikeout, init_items1_elems _ _ its hg]

theorem rt_superscript (its : EList) (hits : decodeVList (encodeEList its) = .ok (elemsVals its)) (hg : goodEL false its = true) :
    decodeVal (encodeElem (.Superscript its)) = .ok (.elem (.Superscript its)) := by
  simp [encodeElem, elemName, encodeContent, encode_dict, decodeVal_dict,
    decodeVPairs_cons, decodeVPairs_nil, decodeVal_list, hits, from_json,
    from_json_tagged, asElem, pyIter, mkSuperscript, init_items1_elems _ _ its hg]

theorem rt_subscript (its : EList) (hits : decodeVList (encodeEList its) = .ok (elemsVals its)) (hg : goodEL false its = true) :
    decodeVal (encodeElem (.Subscript its)) = .ok (.elem (.Subscript its)) := by
  simp [encodeElem, elemName, encodeContent, encode_dict, decodeVal_dict,
    decodeVPairs_cons, decodeVPairs_nil, decodeVal_list, hits, from_json,
    from_json_tagged, asElem, pyIter, mkSubscript, init_items1_elems _ _ its hg]

theorem rt_smallcaps (its : EList) (hits : decodeVList (encodeEList its) = .ok (elemsVals its)) (hg : goodEL false its = true) :
    decodeVal (encodeElem (.SmallCaps its)) = .ok (.elem (.SmallCaps its)) := by
  simp [encodeElem, elemName, encodeContent, encode_dict, decodeVal_dict,
    decodeVPairs_cons, decodeVPairs_nil, decodeVal_list, hits, from_json,
    from_json_tagged, asElem, pyIter, mkSmallCaps, init_items1_elems _ _ its hg]

theorem rt_note (its : EList) (hits : decodeVList (encodeEList its) = .ok (elemsVals its)) (hg : goodEL true its = true) :
    decodeVal (encodeElem (.Note its)) = .ok (.elem (.Note its)) := by
  simp [encodeElem, elemName, encodeContent, encode_dict, decodeVal_dict,
    decodeVPairs_cons, decodeVPairs_nil, decodeVal_list, hits, from_json,
    from_json_tagged, asElem, pyIter, mkNote, init_items1_elems _ _ its hg]

theorem rt_span (its : EList) (idt : String) (cls : Val)
    (hc : classesOK cls = true)
    (hits : decodeVList (encodeEList its) = .ok (elemsVals its))
    (hg : goodEL false its = true) :
    decodeVal (encodeElem (.Span idt cls .nil its)) =
      .ok (.elem (.Span idt cls .nil its)) := by
  simp [encodeElem, elemName, encodeContent, encode_dict, decodeVal_dict,
    decodeVPairs_cons, decodeVPairs_nil, decodeVal_list, decodeVList_cons,
    hits, from_json, from_json_tagged, asElem, pyIter, pyGetItem, VList.get?,
    encode_ica, attrItemsV, decode_classesVal cls hc, mkSpan,
    init_ica_rt idt cls hc, init_items1_elems _ _ its hg]

theorem rt_image (its : EList) (idt : String) (cls : Val) (u t : String)
    (hc : classesOK cls = true)
    (hits : decodeVList (encodeEList its) = .ok (elemsVals its))
    (hg : goodEL false its = true) :
    decodeVal (encodeElem (.Image idt cls .nil its u t)) =
      .ok (.elem (.Image idt cls .nil its u t)) := by
  simp [encodeElem, elemName, encodeContent, encode_dict, decodeVal_dict,
    decodeVPairs_cons, decodeVPairs_nil, decodeVal_list, decodeVList_cons,
    hits, from_json, from_json_tagged, asElem, pyIter, pyGetItem, VList.get?,
    encode_ica, attrItemsV, decode_classesVal cls hc, mkImage, init_ut,
    validate_str, init_ica_rt idt cls hc, init_items1_elems _ _ its hg]

theorem rt_code (s idt : String) (cls : Val) (hc : classesOK cls = true) :
    decodeVal (encodeElem (.Code s idt cls .nil)) =
      .ok (.elem (.Code s idt cls .nil)) := by
  simp [encodeElem, elemName, encodeContent, encode_dict, decodeVal_dict,
    decodeVPairs_cons, decodeVPairs_nil, decodeVal_list, decodeVList_cons,
    encode_ica, attrItemsV, decode_classesVal cls hc, from_json,
    from_json_tagged, asElem, pyGetItem, VList.get?, mkCode,
    validate_str, init_ica_rt idt cls hc]

theorem rt_rawinline (s f : String) (hf : strIn f RAW_FORMATS = true) :
    decodeVal (encodeElem (.RawInline s f)) = .ok (.elem (.RawInline s f)) := by
  simp [encodeElem, elemName, encodeContent, encode_dict, decodeVal_dict,
    decodeVPairs_cons, decodeVPairs_nil, decodeVal_list, decodeVList_cons,
    from_json, from_json_tagged, asElem, pyGetItem, VList.get?, mkRawInline,
    validate_str, validate_group_str, hf]

theorem rt_metablocks (its : EList)
    (hits : decodeVList (encodeEList its) = .ok (elemsVals its))
    (hg : goodEL true its = true) :
    decodeVal (encodeElem (.MetaBlocks its)) = .ok (.elem (.MetaBlocks its)) := by
  simp [encodeElem, elemName, encodeContent, encode_dict, decodeVal_dict,
    decodeVPairs_cons, decodeVPairs_nil, decodeVal_list, hits, from_json,
    from_json_tagged, asElem, pyIter, mkMetaBlocks, init_items1_elems _ _ its hg]

/-- Main induction: on the good fragment, decoding an encoded element
(or child list, or row list) reconstructs it exactly. -/
theorem rt_main : ∀ (n : Nat),
    (∀ (e : Elem), sizeOf e < n → goodE e = true →
      decodeVal (encodeElem e) = .ok (.elem e))
    ∧ (∀ (b : Bool) (its : EList), sizeOf its < n → goodEL b its = true →
      decodeVList (encodeEList its) = .ok (elemsVals its))
    ∧ (∀ (b : Bool) (rows : ELL), sizeOf rows < n → goodELL b rows = true →
      decodeVList (encodeELL rows) = .ok (rowsVals rows)) := by
  intro n
  induction n with
  | zero =>
    exact ⟨fun e he => absurd he (Nat.not_lt_zero _),
      fun b its he => absurd he (Nat.not_lt_zero _),
      fun b rows he => absurd he (Nat.not_lt_zero _)⟩
  | succ n ih =>
    obtain ⟨ihE, ihL, ihR⟩ := ih
    refine ⟨?_, ?_, ?_⟩
    · intro e he hg
      cases e with
      | Null => rfl
      | Space => rfl
      | HorizontalRule => rfl
      | SoftBreak => rfl
      | LineBreak => rfl
      | Plain its =>
        simp only [goodE] at hg
        exact rt_plain its (ihL false its (by simp at he; omega) hg) hg
      | Para its =>
        simp only [goodE] at hg
        exact rt_para its (ihL false its (by simp at he; omega) hg) hg
      | BlockQuote its =>
        simp only [goodE] at hg
        exact rt_blockquote its (ihL true its (by simp at he; omega) hg) hg
      | Emph its =>
        simp only [goodE] at hg
        exact rt_emph its (ihL false its (by simp at he; omega) hg) hg
      | Strong its =>
        simp only [goodE] at hg
        exact rt_strong its (ihL false its (by simp at he; omega) hg) hg
      | Strikeout its =>
        simp only [goodE] at hg
        exact rt_strikeout its (ihL false its (by simp at he; omega) hg) hg
      | Superscript its =>
        simp only [goodE] at hg
        exact rt_superscript its (ihL false its (by simp at he; omega) hg) hg
      | Subscript its =>
        simp only [goodE] at hg
        exact rt_subscript its (ihL false its (by simp at he; omega) hg) hg
      | SmallCaps its =>
        simp only [goodE] at hg
        exact rt_smallcaps its (ihL false its (by simp at he; omega) hg) hg
      | Note its =>
        simp only [goodE] at hg
        exact rt_note its (ihL true its (by simp at he; omega) hg) hg
      | Header lv idt cls attrs its =>
        cases attrs <;>
          simp only [goodE, Bool.and_eq_true, attrsNil, Bool.and_false,
            Bool.false_eq_true, and_false, false_and] at hg
        obtain ⟨⟨⟨hlv, hcls⟩, -⟩, hits⟩ := hg
        exact rt_header its lv idt cls hlv hcls
          (ihL false its (by simp at he; omega) hits) hits
      | Div idt cls attrs its =>
        cases attrs <;>
          simp only [goodE, Bool.and_eq_true, attrsNil, Bool.and_false,
            Bool.false_eq_true, and_false, false_and] at hg
        obtain ⟨⟨hcls, -⟩, hits⟩ := hg
        exact rt_div its idt cls hcls
          (ihL true its (by simp at he; omega) hits) hits
      | Span idt cls attrs its =>
        cases attrs <;>
          simp only [goodE, Bool.and_eq_true, attrsNil, Bool.and_false,
            Bool.false_eq_true, and_false, false_and] at hg
        obtain ⟨⟨hcls, -⟩, hits⟩ := hg
        exact rt_span its idt cls hcls
          (ihL false its (by simp at he; omega) hits) hits
      | Quoted qt its =>
        simp only [goodE, Bool.and_eq_true] at hg
        obtain ⟨hq, hits⟩ := hg
        exact rt_quoted its qt hq
          (ihL false its (by simp at he; omega) hits) hits
      | Cite cits its =>
        cases cits <;>
          simp only [goodE, Bool.and_eq_true, Bool.false_eq_true, false_and] at hg
        obtain ⟨-, hits⟩ := hg
        exact rt_cite its (ihL false its (by simp at he; omega) hits) hits
      | Link idt cls attrs its u t =>
        cases attrs <;>
          simp only [goodE, Bool.and_eq_true, attrsNil, Bool.and_false,
            Bool.false_eq_true, and_false, false_and] at hg
        obtain ⟨⟨hcls, -⟩, hits⟩ := hg
        exact rt_link its idt cls u t hcls
          (ihL false its (by simp at he; omega) hits) hits
      | Image idt cls attrs its u t =>
        cases attrs <;>
          simp only [goodE, Bool.and_eq_true, attrsNil, Bool.and_false,
            Bool.false_eq_true, and_false, false_and] at hg
        obtain ⟨⟨hcls, -⟩, hits⟩ := hg
        exact rt_image its idt cls u t hcls
          (ihL false its (by simp at he; omega) hits) hits
      | Str s => exact rt_str s
      | CodeBlock s idt cls attrs =>
        cases attrs <;>
          simp only [goodE, Bool.and_eq_true, attrsNil, Bool.and_false,
            Bool.false_eq_true, and_false] at hg
        exact rt_codeblock s idt cls hg.1
      | RawBlock s f =>
        simp only [goodE] at hg
        exact rt_rawblock s f hg
      | Code s idt cls attrs =>
        cases attrs <;>
          simp only [goodE, Bool.and_eq_true, attrsNil, Bool.and_false,
            Bool.false_eq_true, and_false] at hg
        exact rt_code s idt cls hg.1
      | Math s f =>
        simp only [goodE] at hg
        exact rt_math s f hg
      | RawInline s f =>
        simp only [goodE] at hg
        exact rt_rawinline s f hg
      | BulletList rows =>
        simp only [goodE] at hg
        exact rt_bulletlist rows (ihR true rows (by simp at he; omega) hg) hg
      | OrderedList rows st sty delim =>
        simp only [goodE, Bool.and_eq_true] at hg
        obtain ⟨⟨⟨hrows, hst⟩, hsty⟩, hdelim⟩ := hg
        exact rt_orderedlist rows st sty delim hst hsty hdelim
          (ihR true rows (by simp at he; omega) hrows) hrows
      | DefinitionList its =>
        cases its <;> simp only [goodE, Bool.false_eq_true] at hg
        exact rt_deflist
      | Table items rows cols header caption alignment width =>
        simp only [goodE, Bool.false_eq_true] at hg
      | MetaInlines its =>
        simp only [goodE] at hg
        exact rt_metainlines its (ihL false its (by simp at he; omega) hg) hg
      | MetaBlocks its =>
        simp only [goodE] at hg
        exact rt_metablocks its (ihL true its (by simp at he; omega) hg) hg
      | Doc meta items format =>
        simp only [goodE, Bool.false_eq_true] at hg
    · intro b its hs hg
      cases its with
      | nil => rfl
      | cons e tl =>
        simp only [goodEL, Bool.and_eq_true] at hg
        obtain ⟨⟨hcap, hge⟩, htl⟩ := hg
        have he' := ihE e (by simp at hs; omega) hge
        have htl' := ihL b tl (by simp at hs; omega) htl
        simp [encodeEList_cons, decodeVList_cons, he', htl', elemsVals]
    · intro b rows hs hg
      cases rows with
      | nil => rfl
      | cons row tl =>
        simp only [goodELL, Bool.and_eq_true] at hg
        obtain ⟨hrow, htl⟩ := hg
        have hrow' := ihL b row (by simp at hs; omega) hrow
        have htl' := ihR b tl (by simp at hs; omega) htl
        simp [encodeELL, decodeVList_cons, decodeVal_list, hrow', htl', rowsVals]

/-- Instance of `rt_main` for a single element. -/
theorem decode_encode_good (e : Elem) (h : goodE e = true) :
    decodeVal (encodeElem e) = .ok (.elem e) :=
  (rt_main (sizeOf e + 1)).1 e (Nat.lt_succ_self _) h

/-- A dict-shaped `classes` value is constructible (its truthiness
keeps it, and iterating a mapping yields its string keys, so
`init_ica`'s asserts pass), but it does not round trip: on the wire it
is an object, so the decode hook runs on it — here the first key `'t'`
with no second pair raises `IndexError`.  This is why `classesOK`
admits strings and string lists but not mappings. -/
theorem classes_dict_roundtrip_fails :
    mkCode (.str "x") (.str "") (.dict (.cons "t" (.str "x") .nil)) .none =
      .ok (.Code "x" "" (.dict (.cons "t" (.str "x") .nil)) .nil)
    ∧ decodeVal (encodeElem
        (.Code "x" "" (.dict (.cons "t" (.str "x") .nil)) .nil)) =
      .err .indexError :=
  ⟨rfl, rfl⟩

/-- C1 (amended): encode-then-decode is the identity on every
constructible element node all of whose attribute bundles are empty and
whose class values are strings or lists of strings.  The fragment's
side conditions are exactly the validators' acceptance conditions:
`levelOK` admits every level Python-`==` to 1..6 (booleans and
zero-fraction floats included), `startOK` every numeric integral
non-negative start, and the enumerated fields their exact sets; Table,
Citation and non-empty DefinitionList are not constructible at all
(their constructors raise `TypeError`).  Non-empty attribute bundles
are excluded because the decoder crashes on them (see the
counterexample); dict-shaped class values are excluded because the
decode hook rewrites them (see `classes_dict_roundtrip_fails`). -/
theorem decode_encode_roundtrip (e : Elem) (h : goodE e = true) :
    decodeVal (encodeElem e) = .ok (.elem e) :=
  decode_encode_good e h

/-- Witness for `decode_encode_roundtrip` at concrete fragments,
including a boolean header level, a string classes value and a float
list start. -/
theorem decode_encode_roundtrip_witness :
    (goodE (.Para (.cons (.Str "hi") (.cons .Space .nil))) = true
    ∧ decodeVal (encodeElem (.Para (.cons (.Str "hi") (.cons .Space .nil)))) =
      .ok (.elem (.Para (.cons (.Str "hi") (.cons .Space .nil)))))
    ∧ (goodE (.Header (.bool true) "" (.str "ab") .nil
        (.cons (.Str "t") .nil)) = true
    ∧ decodeVal (encodeElem (.Header (.bool true) "" (.str "ab") .nil
        (.cons (.Str "t") .nil))) =
      .ok (.elem (.Header (.bool true) "" (.str "ab") .nil
        (.cons (.Str "t") .nil))))
    ∧ (goodE (.OrderedList (.cons (.cons .Null .nil) .nil) (.float 2)
        "Decimal" "Period") = true
    ∧ decodeVal (encodeElem (.OrderedList (.cons (.cons .Null .nil) .nil)
        (.float 2) "Decimal" "Period")) =
      .ok (.elem (.OrderedList (.cons (.cons .Null .nil) .nil) (.float 2)
        "Decimal" "Period"))) :=
  ⟨⟨rfl, decode_encode_roundtrip
      (.Para (.cons (.Str "hi") (.cons .Space .nil))) rfl⟩,
    ⟨rfl, decode_encode_roundtrip
      (.Header (.bool true) "" (.str "ab") .nil (.cons (.Str "t") .nil)) rfl⟩,
    ⟨rfl, decode_encode_roundtrip
      (.OrderedList (.cons (.cons .Null .nil) .nil) (.float 2)
        "Decimal" "Period") rfl⟩⟩

/-- C1 counterexample: `Code('x', attributes=OrderedDict([('a','b')]))`
is constructible, but decoding its encoding raises: the wire carries the
attributes as a list of pairs, and `init_ica`'s
`assert isinstance(self.attributes, dict)` fails on it.  So
`from_json(to_json(n))` is not `n` for every constructible node. -/
theorem decode_encode_roundtrip_cex :
    mkCode (.str "x") (.str "") .none (.dict (.cons "a" (.str "b") .nil)) =
      .ok (.Code "x" "" (.list .nil) (.cons "a" (.str "b") .nil))
    ∧ decodeVal (encodeElem (.Code "x" "" (.list .nil)
        (.cons "a" (.str "b") .nil))) = .err .assertionError :=
  ⟨rfl, rfl⟩

-- ---------------------------
-- Well-formed element wires (the 6 shapes the decoder accepts and
-- rebuilds into element nodes)
-- ---------------------------

mutual

/-- Well-formed wire values for Block-capability element kinds: the
exact tagged shapes of the wire format, with the constraints the
decoder's revalidation enforces (integer bounds, enumeration
membership, string fields), empty attribute lists (a non-empty one is
rejected by the decoder) and no Table or non-empty DefinitionList
(their constructors always raise, so the decoder rejects those
wires). -/
inductive WFB : Val → Prop where
  | null : WFB (encode_dict "Null" (.list .nil))
  | hrule : WFB (encode_dict "HorizontalRule" (.list .nil))
  | plain {ws : VList} : WFIL ws → WFB (encode_dict "Plain" (.list ws))
  | para {ws : VList} : WFIL ws → WFB (encode_dict "Para" (.list ws))
  | blockquote {ws : VList} : WFBL ws →
      WFB (encode_dict "BlockQuote" (.list ws))
  | header {n : Int} {idt : String} {cls : Val} {ws : VList} :
      1 ≤ n → n ≤ 6 → isStrList cls = true → WFIL ws →
      WFB (encode_dict "Header" (.list (.cons (.int n)
        (.cons (encode_ica idt cls .nil) (.cons (.list ws) .nil)))))
  | div {idt : String} {cls : Val} {ws : VList} :
      isStrList cls = true → WFBL ws →
      WFB (encode_dict "Div" (.list (.cons (encode_ica idt cls .nil)
        (.cons (.list ws) .nil))))
  | codeblock {s idt : String} {cls : Val} :
      isStrList cls = true →
      WFB (encode_dict "CodeBlock" (.list (.cons (encode_ica idt cls .nil)
        (.cons (.str s) .nil))))
  | rawblock {s f : String} :
      strIn f RAW_FORMATS = true →
      WFB (encode_dict "RawBlock" (.list (.cons (.str f) (.cons (.str s) .nil))))
  | bulletlist {rws : VList} : WFRowsB rws →
      WFB (encode_dict "BulletList" (.list rws))
  | orderedlist {n : Int} {stw dlw : String} {rws : VList} :
      0 ≤ n → strIn stw LIST_NUMBER_STYLES = true →
      strIn dlw LIST_NUMBER_DELIMITERS = true → WFRowsB rws →
      WFB (encode_dict "OrderedList" (.list (.cons
        (.list (.cons (.int n) (.cons (encode_dict stw (.list .nil))
          (.cons (encode_dict dlw (.list .nil)) .nil))))
        (.cons (.list rws) .nil))))
  | deflist : WFB (encode_dict "DefinitionList" (.list .nil))

/-- Well-formed wire values for Inline-capability element kinds. -/
inductive WFI : Val → Prop where
  | space : WFI (encode_dict "Space" (.list .nil))
  | softbreak : WFI (encode_dict "SoftBreak" (.list .nil))
  | linebreak : WFI (encode_dict "LineBreak" (.list .nil))
  | emph {ws : VList} : WFIL ws → WFI (encode_dict "Emph" (.list ws))
  | strong {ws : VList} : WFIL ws → WFI (encode_dict "Strong" (.list ws))
  | strikeout {ws : VList} : WFIL ws → WFI (encode_dict "Strikeout" (.list ws))
  | superscript {ws : VList} : WFIL ws →
      WFI (encode_dict "Superscript" (.list ws))
  | subscript {ws : VList} : WFIL ws → WFI (encode_dict "Subscript" (.list ws))
  | smallcaps {ws : VList} : WFIL ws → WFI (encode_dict "SmallCaps" (.list ws))
  | note {ws : VList} : WFBL ws → WFI (encode_dict "Note" (.list ws))
  | span {idt : String} {cls : Val} {ws : VList} :
      isStrList cls = true → WFIL ws →
      WFI (encode_dict "Span" (.list (.cons (encode_ica idt cls .nil)
        (.cons (.list ws) .nil))))
  | quoted {q : String} {ws : VList} :
      strIn q QUOTE_TYPES = true → WFIL ws →
      WFI (encode_dict "Quoted" (.list (.cons (encode_dict q (.list .nil))
        (.cons (.list ws) .nil))))
  | cite {ws : VList} : WFIL ws →
      WFI (encode_dict "Cite" (.list (.cons (.list .nil)
        (.cons (.list ws) .nil))))
  | link {idt u t : String} {cls : Val} {ws : VList} :
      isStrList cls = true → WFIL ws →
      WFI (encode_dict "Link" (.list (.cons (encode_ica idt cls .nil)
        (.cons (.list ws)
          (.cons (.list (.cons (.str u) (.cons (.str t) .nil))) .nil)))))
  | image {idt u t : String} {cls : Val} {ws : VList} :
      isStrList cls = true → WFIL ws →
      WFI (encode_dict "Image" (.list (.cons (encode_ica idt cls .nil)
        (.cons (.list ws)
          (.cons (.list (.cons (.str u) (.cons (.str t) .nil))) .nil)))))
  | str {s : String} : WFI (encode_dict "Str" (.str s))
  | code {s idt : String} {cls : Val} :
      isStrList cls = true →
      WFI (encode_dict "Code" (.list (.cons (encode_ica idt cls .nil)
        (.cons (.str s) .nil))))
  | math {s f : String} :
      strIn f MATH_FORMATS = true →
      WFI (encode_dict "Math" (.list (.cons (encode_dict f (.list .nil))
        (.cons (.str s) .nil))))
  | rawinline {s f : String} :
      strIn f RAW_FORMATS = true →
      WFI (encode_dict "RawInline" (.list (.cons (.str f) (.cons (.str s) .nil))))

/-- A sequence of well-formed Block wires. -/
inductive WFBL : VList → Prop where
  | nil : WFBL .nil
  | cons {w : Val} {tl : VList} : WFB w → WFBL tl → WFBL (.cons w tl)

/-- A sequence of well-formed Inline wires. -/
inductive WFIL : VList → Prop where
  | nil : WFIL .nil
  | cons {w : Val} {tl : VList} : WFI w → WFIL tl → WFIL (.cons w tl)

/-- A sequence of rows, each an array of well-formed Block wires. -/
inductive WFRowsB : VList → Prop where
  | nil : WFRowsB .nil
  | cons {bs : VList} {tl : VList} : WFBL bs → WFRowsB tl →
      WFRowsB (.cons (.list bs) tl)

end

/-- Top-level well-formed element wires: a Block or Inline wire, or one
of the two metadata snippet wrappers (which also decode to element
nodes). -/
inductive WFTop : Val → Prop where
  | block {w : Val} : WFB w → WFTop w
  | inline {w : Val} : WFI w → WFTop w
  | metaInlines {ws : VList} : WFIL ws →
      WFTop (encode_dict "MetaInlines" (.list ws))
  | metaBlocks {ws : VList} : WFBL ws →
      WFTop (encode_dict "MetaBlocks" (.list ws))

mutual

/-- Every well-formed Block wire is the encoding of a good Block
element. -/
theorem wfB_image : ∀ {w : Val}, WFB w →
    ∃ e : Elem, isBlock e = true ∧ goodE e = true ∧ encodeElem e = w
  | _, .null => ⟨.Null, rfl, rfl, rfl⟩
  | _, .hrule => ⟨.HorizontalRule, rfl, rfl, rfl⟩
  | _, .plain hws => by
    obtain ⟨its, hg, henc⟩ := wfIL_image hws
    exact ⟨.Plain its, rfl, by simpa [goodE] using hg,
      by simp [encodeElem, elemName, encodeContent, henc]⟩
  | _, .para hws => by
    obtain ⟨its, hg, henc⟩ := wfIL_image hws
    exact ⟨.Para its, rfl, by simpa [goodE] using hg,
      by simp [encodeElem, elemName, encodeContent, henc]⟩
  | _, .blockquote hws => by
    obtain ⟨its, hg, henc⟩ := wfBL_image hws
    exact ⟨.BlockQuote its, rfl, by simpa [goodE] using hg,
      by simp [encodeElem, elemName, encodeContent, henc]⟩
  | _, @WFB.header n idt cls ws h1 h2 hcls hws => by
    obtain ⟨its, hg, henc⟩ := wfIL_image hws
    exact ⟨.Header (.int n) idt cls .nil its, rfl,
      by simp [goodE, attrsNil, levelOK_int n h1 h2,
        classesOK_of_isStrList cls hcls, hg],
      by simp [encodeElem, elemName, encodeContent, henc]⟩
  | _, @WFB.div idt cls ws hcls hws => by
    obtain ⟨its, hg, henc⟩ := wfBL_image hws
    exact ⟨.Div idt cls .nil its, rfl, by simp [goodE, attrsNil, classesOK_of_isStrList cls hcls, hg],
      by simp [encodeElem, elemName, encodeContent, henc]⟩
  | _, @WFB.codeblock s idt cls hcls =>
    ⟨.CodeBlock s idt cls .nil, rfl, by simp [goodE, attrsNil, classesOK_of_isStrList cls hcls], rfl⟩
  | _, @WFB.rawblock s f hf =>
    ⟨.RawBlock s f, rfl, by simpa [goodE] using hf, rfl⟩
  | _, .bulletlist hrws => by
    obtain ⟨rows, hg, henc⟩ := wfRowsB_image hrws
    exact ⟨.BulletList rows, rfl, by simpa [goodE] using hg,
      by simp [encodeElem, elemName, encodeContent, henc]⟩
  | _, @WFB.orderedlist n stw dlw rws hn hst hdl hrws => by
    obtain ⟨rows, hg, henc⟩ := wfRowsB_image hrws
    exact ⟨.OrderedList rows (.int n) stw dlw, rfl,
      by simp [goodE, startOK_int n hn, hst, hdl, hg],
      by simp [encodeElem, elemName, encodeContent, henc]⟩
  | _, .deflist => ⟨.DefinitionList .nil, rfl, rfl, rfl⟩

/-- Every well-formed Inline wire is the encoding of a good Inline
element. -/
theorem wfI_image : ∀ {w : Val}, WFI w →
    ∃ e : Elem, isInline e = true ∧ goodE e = true ∧ encodeElem e = w
  | _, .space => ⟨.Space, rfl, rfl, rfl⟩
  | _, .softbreak => ⟨.SoftBreak, rfl, rfl, rfl⟩
  | _, .linebreak => ⟨.LineBreak, rfl, rfl, rfl⟩
  | _, .emph hws => by
    obtain ⟨its, hg, henc⟩ := wfIL_image hws
    exact ⟨.Emph its, rfl, by simpa [goodE] using hg,
      by simp [encodeElem, elemName, encodeContent, henc]⟩
  | _, .strong hws => by
    obtain ⟨its, hg, henc⟩ := wfIL_image hws
    exact ⟨.Strong its, rfl, by simpa [goodE] using hg,
      by simp [encodeElem, elemName, encodeContent, henc]⟩
  | _, .strikeout hws => by
    obtain ⟨its, hg, henc⟩ := wfIL_image hws
    exact ⟨.Strikeout its, rfl, by simpa [goodE] using hg,
      by simp [encodeElem, elemName, encodeContent, henc]⟩
  | _, .superscript hws => by
    obtain ⟨its, hg, henc⟩ := wfIL_image hws
    exact ⟨.Superscript its, rfl, by simpa [goodE] using hg,
      by simp [encodeElem, elemName, encodeContent, henc]⟩
  | _, .subscript hws => by
    obtain ⟨its, hg, henc⟩ := wfIL_image hws
    exact ⟨.Subscript its, rfl, by simpa [goodE] using hg,
      by simp [encodeElem, elemName, encodeContent, henc]⟩
  | _, .smallcaps hws => by
    obtain ⟨its, hg, henc⟩ := wfIL_image hws
    exact ⟨.SmallCaps its, rfl, by simpa [goodE] using hg,
      by simp [encodeElem, elemName, encodeContent, henc]⟩
  | _, .note hws => by
    obtain ⟨its, hg, henc⟩ := wfBL_image hws
    exact ⟨.Note its, rfl, by simpa [goodE] using hg,
      by simp [encodeElem, elemName, encodeContent, henc]⟩
  | _, @WFI.span idt cls ws hcls hws => by
    obtain ⟨its, hg, henc⟩ := wfIL_image hws
    exact ⟨.Span idt cls .nil its, rfl, by simp [goodE, attrsNil, classesOK_of_isStrList cls hcls, hg],
      by simp [encodeElem, elemName, encodeContent, henc]⟩
  | _, @WFI.quoted q ws hq hws => by
    obtain ⟨its, hg, henc⟩ := wfIL_image hws
    exact ⟨.Quoted q its, rfl, by simp [goodE, hq, hg],
      by simp [encodeElem, elemName, encodeContent, henc]⟩
  | _, .cite hws => by
    obtain ⟨its, hg, henc⟩ := wfIL_image hws
    exact ⟨.Cite .nil its, rfl, by simpa [goodE] using hg,
      by simp [encodeElem, elemName, encodeContent, encodeCitList, henc]⟩
  | _, @WFI.link idt u t cls ws hcls hws => by
    obtain ⟨its, hg, henc⟩ := wfIL_image hws
    exact ⟨.Link idt cls .nil its u t, rfl, by simp [goodE, attrsNil, classesOK_of_isStrList cls hcls, hg],
      by simp [encodeElem, elemName, encodeContent, henc]⟩
  | _, @WFI.image idt u t cls ws hcls hws => by
    obtain ⟨its, hg, henc⟩ := wfIL_image hws
    exact ⟨.Image idt cls .nil its u t, rfl, by simp [goodE, attrsNil, classesOK_of_isStrList cls hcls, hg],
      by simp [encodeElem, elemName, encodeContent, henc]⟩
  | _, @WFI.str s => ⟨.Str s, rfl, rfl, rfl⟩
  | _, @WFI.code s idt cls hcls =>
    ⟨.Code s idt cls .nil, rfl, by simp [goodE, attrsNil, classesOK_of_isStrList cls hcls], rfl⟩
  | _, @WFI.math s f hf =>
    ⟨.Math s f, rfl, by simpa [goodE] using hf, rfl⟩
  | _, @WFI.rawinline s f hf =>
    ⟨.RawInline s f, rfl, by simpa [goodE] using hf, rfl⟩

/-- Sequences of well-formed Block wires are encodings of good Block
child lists. -/
theorem wfBL_image : ∀ {ws : VList}, WFBL ws →
    ∃ its : EList, goodEL true its = true ∧ encodeEList its = ws
  | _, .nil => ⟨.nil, rfl, rfl⟩
  | _, .cons hw htl => by
    obtain ⟨e, hb, hg, henc⟩ := wfB_image hw
    obtain ⟨its, hgs, hencs⟩ := wfBL_image htl
    exact ⟨.cons e its, by simp [goodEL, hb, hg, hgs],
      by simp [encodeEList_cons, henc, hencs]⟩

/-- Sequences of well-formed Inline wires are encodings of good Inline
child lists. -/
theorem wfIL_image : ∀ {ws : VList}, WFIL ws →
    ∃ its : EList, goodEL false its = true ∧ encodeEList its = ws
  | _, .nil => ⟨.nil, rfl, rfl⟩
  | _, .cons hw htl => by
    obtain ⟨e, hb, hg, henc⟩ := wfI_image hw
    obtain ⟨its, hgs, hencs⟩ := wfIL_image htl
    exact ⟨.cons e its, by simp [goodEL, hb, hg, hgs],
      by simp [encodeEList_cons, henc, hencs]⟩

/-- Row sequences of well-formed Block wires are encodings of good row
lists. -/
theorem wfRowsB_image : ∀ {ws : VList}, WFRowsB ws →
    ∃ rows : ELL, goodELL true rows = true ∧ encodeELL rows = ws
  | _, .nil => ⟨.nil, rfl, rfl⟩
  | _, .cons hbs htl => by
    obtain ⟨row, hg, henc⟩ := wfBL_image hbs
    obtain ⟨rows, hgs, hencs⟩ := wfRowsB_image htl
    exact ⟨.cons row rows, by simp [goodELL, hg, hgs],
      by simp [encodeELL, henc, hencs]⟩

end

/-- On any element other than the `Doc` root, `to_json` is the tagged
encoding (good elements are never `Doc`). -/
theorem to_json_elem (e : Elem) (h : goodE e = true) :
    to_json (.elem e) = .ok (encodeElem e) := by
  cases e <;> first
    | rfl
    | simp [goodE, Bool.false_eq_true] at h

/-- C2 (amended): for every well-formed element wire value — a §6
tagged node shape that the decoder accepts and rebuilds into an element
node — re-encoding the decoded value gives back the wire value exactly:
`to_json(from_json(w)) == w`.  (Wire values for bare enumerated values
and for the metadata tags other than the two snippet wrappers decode to
plain strings, booleans, lists or mappings, on which `to_json` raises
`AttributeError` — see the counterexample.) -/
theorem encode_decode_roundtrip (w : Val) (h : WFTop w) :
    (decodeVal w).bind to_json = .ok w := by
  cases h with
  | block hb =>
    obtain ⟨e, -, hg, henc⟩ := wfB_image hb
    rw [← henc, decode_encode_good e hg]
    simpa using to_json_elem e hg
  | inline hi =>
    obtain ⟨e, -, hg, henc⟩ := wfI_image hi
    rw [← henc, decode_encode_good e hg]
    simpa using to_json_elem e hg
  | @metaInlines ws hws =>
    obtain ⟨its, hg, henc⟩ := wfIL_image hws
    have hcast : encode_dict "MetaInlines" (.list ws) = encodeElem (.MetaInlines its) := by
      simp [encodeElem, elemName, encodeContent, henc]
    rw [hcast, decode_encode_good (.MetaInlines its) (by simpa [goodE] using hg)]
    simpa using to_json_elem (.MetaInlines its) (by simpa [goodE] using hg)
  | @metaBlocks ws hws =>
    obtain ⟨its, hg, henc⟩ := wfBL_image hws
    have hcast : encode_dict "MetaBlocks" (.list ws) = encodeElem (.MetaBlocks its) := by
      simp [encodeElem, elemName, encodeContent, henc]
    rw [hcast, decode_encode_good (.MetaBlocks its) (by simpa [goodE] using hg)]
    simpa using to_json_elem (.MetaBlocks its) (by simpa [goodE] using hg)

/-- Witness for `encode_decode_roundtrip`: a paragraph wire holding one
string run. -/
theorem encode_decode_roundtrip_witness :
    (decodeVal (encode_dict "Para"
        (.list (.cons (encode_dict "Str" (.str "hi")) .nil)))).bind to_json =
      .ok (encode_dict "Para" (.list (.cons (encode_dict "Str" (.str "hi")) .nil))) :=
  encode_decode_roundtrip _ (.block (.para (.cons .str .nil)))

/-- C2 counterexample: the §6 enumerated-value wire shape
`{"t": "AlignDefault", "c": []}` is accepted by the decoder (it decodes
to the bare string), but `to_json` of the decoded value raises
`AttributeError` instead of returning the wire value, so
`to_json(from_json(w)) == w` does not hold for every accepted §6
wire. -/
theorem encode_decode_roundtrip_cex :
    decodeVal (encode_dict "AlignDefault" (.list .nil)) =
      .ok (.str "AlignDefault")
    ∧ (decodeVal (encode_dict "AlignDefault" (.list .nil))).bind to_json =
      .err .attributeError :=
  ⟨rfl, rfl⟩

/-- C3: `to_json` on a `Doc` emits the two-element array with the
`unMeta` wrapper, but its second element is the stored block sequence
as-is — the contained `Null` node is emitted as a raw element object,
not as its tagged wire form `{"t": "Null", "c": []}`. -/
theorem to_json_doc_items_unencoded :
    to_json (.elem (.Doc (.cons "title" (.str "T") .nil)
        (.list (.cons (.elem .Null) .nil)) (.str "html"))) =
      .ok (.list (.cons (.dict (.cons "unMeta"
          (.dict (.cons "title" (.str "T") .nil)) .nil))
        (.cons (.list (.cons (.elem .Null) .nil)) .nil)))
    ∧ Val.list (.cons (.elem .Null) .nil) ≠
        .list (.cons (encodeElem .Null) .nil) :=
  ⟨rfl, by simp [encodeElem, elemName, encodeContent, encode_dict]⟩

/-- C4: a `Table` whose geometry satisfies the documented invariant
(one body row of one cell, a one-cell header, alignment and width
sequences of length one) still fails to construct: line 614 calls
`init_items` without its required `args` parameter, so construction
raises `TypeError` before any geometry check; the geometry checks on
lines 615-624 are unreachable (and even they never compare the
alignment sequence's length to the column count — only membership). -/
theorem table_consistent_geometry_raises :
    mkTable (.cons (.list (.cons (.list (.cons (.elem .Null) .nil)) .nil)) .nil)
      (.list (.cons (.list (.cons (.elem .Null) .nil)) .nil))
      (.list .nil)
      (.list (.cons (.str "AlignDefault") .nil))
      (.list (.cons (.float 0) .nil)) = .err .typeError := rfl

/-- C5 counterexample: the raw-content format of a `RawBlock` is
emitted as the bare format string, not as the tagged form
`{"t": "html", "c": []}`. -/
theorem enum_encoding_cex :
    encodeContent (.RawBlock "x" "html") =
      .list (.cons (.str "html") (.cons (.str "x") .nil))
    ∧ Val.str "html" ≠ encode_dict "html" (.list .nil) :=
  ⟨rfl, by simp [encode_dict]⟩

/-- C5 (amended): quote type, math mode, list style and delimiter,
citation mode and table alignment are all encoded in the bare tagged
form `{"t": <EnumName>, "c": []}` built by `encode_dict`; the raw
format of `RawBlock`/`RawInline` is the exception — it is emitted as
the plain format string. -/
theorem enum_encoding_amended (q m sty delim fr txt : String) (its : EList)
    (rows : ELL) (st h i n : Val) (pre suf : EList) (tbl : ELLL)
    (r c : Nat) (hdr : ELL) (cap : EList) (al : SList) (wd : Val) :
    encodeContent (.Quoted q its) =
      .list (.cons (encode_dict q (.list .nil))
        (.cons (.list (encodeEList its)) .nil))
    ∧ encodeContent (.Math txt m) =
      .list (.cons (encode_dict m (.list .nil)) (.cons (.str txt) .nil))
    ∧ encodeContent (.OrderedList rows st sty delim) =
      .list (.cons (.list (.cons st (.cons (encode_dict sty (.list .nil))
          (.cons (encode_dict delim (.list .nil)) .nil))))
        (.cons (.list (encodeELL rows)) .nil))
    ∧ encodeCit (.mk h i m n pre suf) =
      .dict (.cons "citationSuffix" (.list (encodeEList suf))
        (.cons "citationNoteNum" n
          (.cons "citationMode" (encode_dict m (.list .nil))
            (.cons "citationPrefix" (.list (encodeEList pre))
              (.cons "citationId" i (.cons "citationHash" h .nil))))))
    ∧ encodeAlignment (.cons m al) =
      .cons (encode_dict m (.list .nil)) (encodeAlignment al)
    ∧ encodeContent (.Table tbl r c hdr cap al wd) =
      .list (.cons (.list (encodeEList cap))
        (.cons (.list (encodeAlignment al))
          (.cons wd (.cons (.list (encodeELL hdr))
            (.cons (.list (encodeELLL tbl)) .nil)))))
    ∧ encodeContent (.RawBlock txt fr) =
      .list (.cons (.str fr) (.cons (.str txt) .nil))
    ∧ encodeContent (.RawInline txt fr) =
      .list (.cons (.str fr) (.cons (.str txt) .nil)) :=
  ⟨rfl, rfl, rfl, rfl, rfl, rfl, rfl, rfl⟩

/-- The tags the dispatch chain of `from_json` recognizes, in source
order: the element classes, the metadata tags, and (via the final
membership test) the enumeration members. -/
def DISPATCH_TAGS : List String :=
  ["Null", "Space", "HorizontalRule", "SoftBreak", "LineBreak", "Plain",
   "Para", "BlockQuote", "Emph", "Strong", "Strikeout", "Superscript",
   "Subscript", "SmallCaps", "Note", "Header", "Div", "Span", "Quoted",
   "Cite", "Link", "Image", "Str", "CodeBlock", "RawBlock", "Code", "Math",
   "RawInline", "BulletList", "OrderedList", "DefinitionList", "Table",
   "MetaList", "MetaMap", "MetaInlines", "MetaBlocks", "MetaString",
   "MetaBool"]

/-- The whole known kind-and-enumeration universe of the decoder. -/
def KNOWN_TAGS : List String := DISPATCH_TAGS ++ SPECIAL_ELEMENTS

/-- Membership distributes over list append. -/
theorem strIn_append (s : String) : ∀ (l1 l2 : List String),
    strIn s (l1 ++ l2) = (strIn s l1 || strIn s l2)
  | [], l2 => by simp [strIn]
  | a :: tl, l2 => by
    simp [strIn, strIn_append s tl l2, Bool.or_assoc]

/-- C6: decoding a tagged wire value whose tag string lies outside the
known kind and enumeration universe reaches the decoder's final
`raise Exception('unknown tag ' + tag)`: the result is the fatal
`unknownTag` error and never a silently produced value. -/
theorem unknown_tag_rejected (tag : String) (c : Val)
    (h : strIn tag KNOWN_TAGS = false) :
    from_json (.cons "t" (.str tag) (.cons "c" c .nil)) =
      .err (.unknownTag tag) := by
  simp only [KNOWN_TAGS] at h
  rw [strIn_append] at h
  rw [Bool.or_eq_false_iff] at h
  obtain ⟨hd, hs⟩ := h
  simp only [DISPATCH_TAGS, strIn, Bool.or_eq_false_iff,
    decide_eq_false_iff_not] at hd
  simp [from_json, from_json_tagged, hd, hs]

/-- Witness for `unknown_tag_rejected` at the spec's example tag. -/
theorem unknown_tag_rejected_witness :
    strIn "FutureBlock" KNOWN_TAGS = false
    ∧ from_json (.cons "t" (.str "FutureBlock") (.cons "c" (.list .nil) .nil)) =
      .err (.unknownTag "FutureBlock") :=
  ⟨rfl, unknown_tag_rejected "FutureBlock" (.list .nil) rfl⟩

/-- C7: for every container kind, a child value (after resolving a
zero-argument callable to the element it returns) that lacks the
capability the parent requires makes construction fail with the
`validate_item` error naming the parent kind, the expected capability
and the actual child's class; a child of the right capability is
accepted (with the other arguments held at legal values).  Stated for
each of the simple containers, the attributed containers, and the
structured containers with flat child lists (`DefinitionList` and
`Table` have no working constructor at all — their `init_items` calls
lack the required `args` parameter — so they are not listed). -/
theorem capability_enforced (x : Val) (e : Elem)
    (hx : resolve_callable x = .elem e) :
    ((isInline e = false → mkPlain (.cons x .nil) =
        .err (.capabilityMismatch "Plain" "Inline" (elemName e)))
      ∧ (isInline e = true → mkPlain (.cons x .nil) = .ok (.Plain (.cons e .nil))))
    ∧ ((isInline e = false → mkPara (.cons x .nil) =
        .err (.capabilityMismatch "Para" "Inline" (elemName e)))
      ∧ (isInline e = true → mkPara (.cons x .nil) = .ok (.Para (.cons e .nil))))
    ∧ ((isBlock e = false → mkBlockQuote (.cons x .nil) =
        .err (.capabilityMismatch "BlockQuote" "Block" (elemName e)))
      ∧ (isBlock e = true → mkBlockQuote (.cons x .nil) =
        .ok (.BlockQuote (.cons e .nil))))
    ∧ ((isInline e = false → mkEmph (.cons x .nil) =
        .err (.capabilityMismatch "Emph" "Inline" (elemName e)))
      ∧ (isInline e = true → mkEmph (.cons x .nil) = .ok (.Emph (.cons e .nil))))
    ∧ ((isInline e = false → mkStrong (.cons x .nil) =
        .err (.capabilityMismatch "Strong" "Inline" (elemName e)))
      ∧ (isInline e = true → mkStrong (.cons x .nil) = .ok (.Strong (.cons e .nil))))
    ∧ ((isInline e = false → mkStrikeout (.cons x .nil) =
        .err (.capabilityMismatch "Strikeout" "Inline" (elemName e)))
      ∧ (isInline e = true → mkStrikeout (.cons x .nil) =
        .ok (.Strikeout (.cons e .nil))))
    ∧ ((isInline e = false → mkSuperscript (.cons x .nil) =
        .err (.capabilityMismatch "Superscript" "Inline" (elemName e)))
      ∧ (isInline e = true → mkSuperscript (.cons x .nil) =
        .ok (.Superscript (.cons e .nil))))
    ∧ ((isInline e = false → mkSubscript (.cons x .nil) =
        .err (.capabilityMismatch "Subscript" "Inline" (elemName e)))
      ∧ (isInline e = true → mkSubscript (.cons x .nil) =
        .ok (.Subscript (.cons e .nil))))
    ∧ ((isInline e = false → mkSmallCaps (.cons x .nil) =
        .err (.capabilityMismatch "SmallCaps" "Inline" (elemName e)))
      ∧ (isInline e = true → mkSmallCaps (.cons x .nil) =
        .ok (.SmallCaps (.cons e .nil))))
    ∧ ((isBlock e = false → mkNote (.cons x .nil) =
        .err (.capabilityMismatch "Note" "Block" (elemName e)))
      ∧ (isBlock e = true → mkNote (.cons x .nil) = .ok (.Note (.cons e .nil))))
    ∧ ((isInline e = false → mkHeader (.cons x .nil) (.int 1) (.str "") .none .none =
        .err (.capabilityMismatch "Header" "Inline" (elemName e)))
      ∧ (isInline e = true → mkHeader (.cons x .nil) (.int 1) (.str "") .none .none =
        .ok (.Header (.int 1) "" (.list .nil) .nil (.cons e .nil))))
    ∧ ((isBlock e = false → mkDiv (.cons x .nil) (.str "") .none .none =
        .err (.capabilityMismatch "Div" "Block" (elemName e)))
      ∧ (isBlock e = true → mkDiv (.cons x .nil) (.str "") .none .none =
        .ok (.Div "" (.list .nil) .nil (.cons e .nil))))
    ∧ ((isInline e = false → mkSpan (.cons x .nil) (.str "") .none .none =
        .err (.capabilityMismatch "Span" "Inline" (elemName e)))
      ∧ (isInline e = true → mkSpan (.cons x .nil) (.str "") .none .none =
        .ok (.Span "" (.list .nil) .nil (.cons e .nil))))
    ∧ ((isInline e = false → mkQuoted (.cons x .nil) (.str "DoubleQuote") =
        .err (.capabilityMismatch "Quoted" "Inline" (elemName e)))
      ∧ (isInline e = true → mkQuoted (.cons x .nil) (.str "DoubleQuote") =
        .ok (.Quoted "DoubleQuote" (.cons e .nil))))
    ∧ ((isInline e = false → mkCite (.cons x .nil) (.list .nil) =
        .err (.capabilityMismatch "Cite" "Inline" (elemName e)))
      ∧ (isInline e = true → mkCite (.cons x .nil) (.list .nil) =
        .ok (.Cite .nil (.cons e .nil))))
    ∧ ((isInline e = false →
        mkLink (.cons x .nil) (.str "u") (.str "t") (.str "") .none .none =
        .err (.capabilityMismatch "Link" "Inline" (elemName e)))
      ∧ (isInline e = true →
        mkLink (.cons x .nil) (.str "u") (.str "t") (.str "") .none .none =
        .ok (.Link "" (.list .nil) .nil (.cons e .nil) "u" "t")))
    ∧ ((isInline e = false →
        mkImage (.cons x .nil) (.str "u") (.str "t") (.str "") .none .none =
        .err (.capabilityMismatch "Image" "Inline" (elemName e)))
      ∧ (isInline e = true →
        mkImage (.cons x .nil) (.str "u") (.str "t") (.str "") .none .none =
        .ok (.Image "" (.list .nil) .nil (.cons e .nil) "u" "t")))
    ∧ ((isBlock e = false → mkBulletList (.cons (.list (.cons x .nil)) .nil) =
        .err (.capabilityMismatch "BulletList" "Block" (elemName e)))
      ∧ (isBlock e = true → mkBulletList (.cons (.list (.cons x .nil)) .nil) =
        .ok (.BulletList (.cons (.cons e .nil) .nil))))
    ∧ ((isBlock e = false → mkOrderedList (.cons (.list (.cons x .nil)) .nil)
          (.int 1) (.str "Decimal") (.str "Period") =
        .err (.capabilityMismatch "OrderedList" "Block" (elemName e)))
      ∧ (isBlock e = true → mkOrderedList (.cons (.list (.cons x .nil)) .nil)
          (.int 1) (.str "Decimal") (.str "Period") =
        .ok (.OrderedList (.cons (.cons e .nil) .nil) (.int 1) "Decimal" "Period"))) := by
  have hica : init_ica (.str "") .none .none = .ok ("", .list .nil, .nil) := rfl
  have hlv : validate_group (.int 1) LEVEL_GROUP = .ok (.int 1) := rfl
  have hssd : init_ssd (.int 1) (.str "Decimal") (.str "Period") =
      .ok (.int 1, "Decimal", "Period") := rfl
  have hut : init_ut (.str "u") (.str "t") = .ok ("u", "t") := rfl
  have hqt : validate_group_str (.str "DoubleQuote") QUOTE_TYPES =
      .ok "DoubleQuote" := rfl
  refine ⟨?_, ?_, ?_, ?_, ?_, ?_, ?_, ?_, ?_, ?_, ?_, ?_, ?_, ?_, ?_, ?_,
    ?_, ?_, ?_⟩ <;>
  · constructor <;> intro hc <;>
      simp [mkPlain, mkPara, mkBlockQuote, mkEmph, mkStrong, mkStrikeout,
        mkSuperscript, mkSubscript, mkSmallCaps, mkNote, mkHeader, mkDiv,
        mkSpan, mkQuoted, mkCite, mkCitations, mkLink, mkImage, mkBulletList,
        mkOrderedList, hica, hlv, hssd, hut, hqt, pyIter, init_items2,
        init_itemsRow, init_items1, validate_item, hx, hc]

/-- Witness for `capability_enforced`: a `Null` block child in a
paragraph is refused with the mismatch error, and a `Space` inline
child is accepted. -/
theorem capability_enforced_witness :
    (mkPara (.cons (.elem .Null) .nil) =
      .err (.capabilityMismatch "Para" "Inline" "Null"))
    ∧ (mkPara (.cons (.thunk .Space) .nil) = .ok (.Para (.cons .Space .nil))) :=
  ⟨((capability_enforced (.elem .Null) .Null rfl).2.1).1 rfl,
    ((capability_enforced (.thunk .Space) .Space rfl).2.1).2 rfl⟩

/-- Modelled from the spec: `Document.lookup(dottedKeyPath, default)`
"splits the path on `.`, descends the ordered-map metadata tree, returns
`default` the first time a key is missing at any level", otherwise the
stored value. -/
def lookupSpec : Val → List String → Val → Val
  | v, [], _ => v
  | .dict ps, k :: ks, d =>
    (match ps.find? k with
     | some w => lookupSpec w ks d
     | Option.none => d)
  | .str _, _ :: _, d => d
  | .bool _, _ :: _, d => d
  | .int _, _ :: _, d => d
  | .float _, _ :: _, d => d
  | .none, _ :: _, d => d
  | .list _, _ :: _, d => d
  | .elem _, _ :: _, d => d
  | .thunk _, _ :: _, d => d

/-- The descent stays inside ordered maps: every value the loop tests a
key against is a mapping (the shape of a §3 metadata tree along the
requested path).  Once a key is missing the rest of the path is
irrelevant, and the final value may be any metadata value. -/
def dictPathV : Val → List String → Bool
  | _, [] => true
  | .dict ps, k :: ks =>
    (match ps.find? k with
     | some w => dictPathV w ks
     | Option.none => true)
  | .str _, _ :: _ => false
  | .bool _, _ :: _ => false
  | .int _, _ :: _ => false
  | .float _, _ :: _ => false
  | .none, _ :: _ => false
  | .list _, _ :: _ => false
  | .elem _, _ :: _ => false
  | .thunk _, _ :: _ => false

/-- The metadata loop agrees with the spec's descend-with-default
semantics whenever the descent only meets mappings. -/
theorem get_metadata_go_spec (d : Val) : ∀ (keys : List String) (v : Val),
    dictPathV v keys = true →
    get_metadata_go v keys d = .ok (lookupSpec v keys d) := by
  intro keys
  induction keys with
  | nil => intro v _; cases v <;> rfl
  | cons k ks ih =>
    intro v h
    cases v <;> simp only [dictPathV, Bool.false_eq_true] at h
    case dict ps =>
      cases hf : ps.find? k with
      | none =>
        simp [get_metadata_go, pyContainsKey, VPairs.hasKey, hf, lookupSpec]
      | some w =>
        rw [hf] at h
        simp [get_metadata_go, pyContainsKey, VPairs.hasKey, hf, pyGetKey,
          lookupSpec, ih w h]

/-- C8: `get_metadata` splits the request on `'.'` and descends the
metadata tree one key per segment; whenever the descent only meets
ordered maps it returns the default at the first missing segment and
the stored value otherwise — exactly the spec's `lookupSpec`
semantics. -/
theorem get_metadata_follows_spec (m : VPairs) (req : String) (d : Val)
    (h : dictPathV (.dict m) (pySplitDot req.data) = true) :
    get_metadata m req d = .ok (lookupSpec (.dict m) (pySplitDot req.data) d) :=
  get_metadata_go_spec d (pySplitDot req.data) (.dict m) h

/-- Witness for `get_metadata_follows_spec`: the spec's examples — the
stored value for `{"format": {"show-frame": true}}`, the default when
`"format"` is absent, and the default when it lacks `"show-frame"`. -/
theorem get_metadata_follows_spec_witness :
    (dictPathV (.dict (.cons "format"
        (.dict (.cons "show-frame" (.bool true) .nil)) .nil))
      (pySplitDot ("format.show-frame" : String).data) = true
    ∧ get_metadata (.cons "format"
        (.dict (.cons "show-frame" (.bool true) .nil)) .nil)
      "format.show-frame" (.bool false) = .ok (.bool true))
    ∧ get_metadata .nil "format.show-frame" (.bool false) = .ok (.bool false)
    ∧ get_metadata (.cons "format" (.dict .nil) .nil)
      "format.show-frame" (.bool false) = .ok (.bool false) :=
  ⟨⟨rfl, (get_metadata_follows_spec
      (.cons "format" (.dict (.cons "show-frame" (.bool true) .nil)) .nil)
      "format.show-frame" (.bool false) rfl).trans rfl⟩,
    (get_metadata_follows_spec .nil "format.show-frame" (.bool false) rfl).trans rfl,
    (get_metadata_follows_spec (.cons "format" (.dict .nil) .nil)
      "format.show-frame" (.bool false) rfl).trans rfl⟩

/-- C9: constructing a `Table` with an empty body never returns a
validated node: `self.cols = len(self.items[0])` hits `IndexError` on
the empty items list, before any of the named structural checks. -/
theorem table_empty_body_index_error (header caption alignment width : Val) :
    mkTable .nil header caption alignment width = .err .indexError := rfl

/-- No `Table` construction ever returns a node: an empty body raises
`IndexError` at `self.items[0]`, and any other body reaches the
`init_items(header, has_blocks=True, depth=2)` call that lacks its
required `args` parameter and raises `TypeError`. -/
theorem mkTable_never_ok (args : VList) (header caption alignment width : Val) :
    (mkTable args header caption alignment width).isError = true := by
  cases hinit : init_items3 "Table" args true with
  | err e => simp [mkTable, hinit]
  | ok items => cases items <;> simp [mkTable, hinit]

/-- C10: constructing a `Table` with the alignment argument omitted
(`None`), or with the width argument omitted (`None`), always fails, so
the computed `AlignDefault`/`0.0` defaults of lines 619-624 are never
observable on a constructed node (indeed those lines are unreachable:
construction already raises at the header's `init_items` call — and had
it not, `all(... for item in alignment)` would iterate the original
`None` and raise `TypeError` itself). -/
theorem table_none_defaults_unreachable (args : VList)
    (header caption alignment width : Val) :
    (mkTable args header caption .none width).isError = true
    ∧ (mkTable args header caption alignment .none).isError = true :=
  ⟨mkTable_never_ok args header caption .none width,
    mkTable_never_ok args header caption alignment .none⟩
